import Mathlib

/-!
Shallow embedding of the policy-position crawling and classification pipeline
of `scripts/policy-position-crawler.js` (class `PolicyPositionCrawler`), and
proofs of the specified properties.

Conventions of the embedding:
* JS strings are Lean `String`s (all relevant data is ASCII, so JS UTF-16
  lengths coincide with Lean char counts).
* JS numbers used for confidences are embedded exactly, scaled by 100 into
  `Nat` (the source only ever uses multiples of 0.05, e.g. `0.8 ↦ 80`,
  `0.15 ↦ 15`); timestamps are `Int` milliseconds and day windows are scaled
  by `86400000` ms/day.  Both scalings are order-isomorphic to the source's
  comparisons, so every branch taken is identical; the sub-1e-15 rounding of
  JS float arithmetic never moves any comparison in this program across its
  threshold.  Counts are `Nat`.
* Thrown JS exceptions are `Except` errors carrying the message.
* The cheerio DOM is abstracted: a parsed page is the list of elements matched
  by the fixed selector list (in selector order) together with the page's
  meta-description and title; an anchor is its `href` attribute and text.
-/

namespace PolicyCrawler

/-- JS `String.prototype.includes` on char lists: `pat` occurs contiguously in `hay`. -/
def charsContain (hay pat : List Char) : Bool :=
  match hay with
  | [] => pat.isEmpty
  | _ :: t => pat.isPrefixOf hay || charsContain t pat

/-- JS `s.includes(pat)`. -/
def jsIncludes (s pat : String) : Bool :=
  charsContain s.data pat.data

/-- JS `s.toLowerCase()` (ASCII-faithful). -/
def jsToLower (s : String) : String :=
  ⟨s.data.map Char.toLower⟩

/-- The whitespace stripped by JS `trim` (ASCII subset; the analyzed data
contains no exotic whitespace). -/
def jsWhitespace (c : Char) : Bool :=
  c == ' ' || c == '\t' || c == '\n' || c == '\r'

/-- JS `s.trim()`. -/
def jsTrim (s : String) : String :=
  ⟨((s.data.dropWhile jsWhitespace).reverse.dropWhile jsWhitespace).reverse⟩

/-- JS `s.substring(0, n)`. -/
def jsTake (s : String) (n : Nat) : String :=
  ⟨s.data.take n⟩

/-- JS `s.startsWith(pre)`. -/
def jsStartsWith (s pre : String) : Bool :=
  pre.data.isPrefixOf s.data

/-- JS `arr.join(sep)`. -/
def jsJoin (sep : String) : List String → String
  | [] => ""
  | x :: rest => rest.foldl (fun acc y => acc ++ sep ++ y) x

/-- Split a char list at every delimiter character (delimiters consumed). -/
def jsSplitAux (p : Char → Bool) : List Char → List Char → List String
  | [], acc => [⟨acc.reverse⟩]
  | c :: rest, acc =>
    if p c then ⟨acc.reverse⟩ :: jsSplitAux p rest []
    else jsSplitAux p rest (c :: acc)

/-- Split a string at every character satisfying `p`. -/
def jsSplit (s : String) (p : Char → Bool) : List String :=
  jsSplitAux p s.data []

/-- The sentence delimiters of the regex `/[.!?]+/`. -/
def isSentenceDelim (c : Char) : Bool :=
  c == '.' || c == '!' || c == '?'

/-- JS `text.split(/[.!?]+/).filter(s => s.trim().length > 20)`.
Splitting on the delimiter predicate differs from the regex split only by
extra empty segments (the regex collapses delimiter runs), and empty segments
never pass the `> 20` filter, so the filtered lists coincide. -/
def longSentences (text : String) : List String :=
  (jsSplit text isSentenceDelim).filter (fun s => (jsTrim s).length > 20)

/-- A JS runtime error. -/
inductive JsError where
  | typeError (msg : String)
deriving DecidableEq, Repr

/-- The message of a `TypeError` raised by reading a property of `undefined`. -/
def undefReadMsg (key : String) : String :=
  "Cannot read properties of undefined (reading " ++ key ++ ")"

/-- The `coreTopics` property of the `PolicyPositionCrawler` instance.
The constructor assigns only `db`, `requestDelay`, `processedCount`,
`errorsCount` and `maxRetries`; `initializeTopicMappings` declares a *local*
`const coreTopics` and never writes `this.coreTopics`.  Hence reading
`this.coreTopics` yields `undefined`, embedded as `none`. -/
def crawlerCoreTopics : Option (List (String × List String)) := none

/-- Evaluate `obj[key]` where `obj` is `this.coreTopics`: indexing `undefined`
throws a `TypeError`; otherwise the property value (or `undefined = none`). -/
def jsIndexCoreTopics (key : String) : Except JsError (Option (List String)) :=
  match crawlerCoreTopics with
  | none => .error (.typeError (undefReadMsg key))
  | some m => .ok ((m.find? (fun p => p.fst == key)).map Prod.snd)

/-! ### Stance analyzer lexicons (`analyzePosition`, lines 884-903) -/

def supportIndicators : List String :=
  ["support", "back", "endorse", "champion", "advocate",
   "believe in", "committed to", "will fight for", "dedicated to",
   "promote", "expand", "strengthen", "increase", "improve",
   "invest in", "fund", "prioritize", "defend", "protect",
   "yes on", "vote for", "in favor of", "agree with"]

def opposeIndicators : List String :=
  ["oppose", "against", "reject", "block", "stop", "prevent",
   "cut", "reduce", "eliminate", "repeal", "defund",
   "no on", "vote against", "disagree with", "resist"]

def strongIndicators : List String :=
  ["strongly", "firmly", "absolutely", "completely", "fully",
   "always", "never", "must", "will", "committed", "dedicated",
   "priority", "essential", "critical", "vital", "fundamental"]

/-- `getTopicIndicators(topic)`: the per-topic support/oppose phrase lists,
defined for five topics only; `indicators[topic.toLowerCase()] || null`. -/
def getTopicIndicators (topic : String) : Option (List String × List String) :=
  let key := jsToLower topic
  if key == "healthcare" then
    some (["expand medicare", "public option", "affordable healthcare", "protect aca", "universal healthcare"],
          ["repeal obamacare", "privatize medicare", "cut medicaid", "block healthcare"])
  else if key == "immigration" then
    some (["path to citizenship", "comprehensive reform", "protect dreamers", "family reunification"],
          ["build wall", "mass deportation", "close borders", "end immigration"])
  else if key == "economy" then
    some (["create jobs", "raise minimum wage", "invest in infrastructure", "support small business"],
          ["cut taxes for wealthy", "reduce regulations", "austerity measures"])
  else if key == "environment" then
    some (["combat climate change", "clean energy", "paris agreement", "green new deal"],
          ["drill for oil", "coal industry", "climate denial", "deregulation"])
  else if key == "education" then
    some (["fund public schools", "affordable college", "support teachers", "increase education"],
          ["school vouchers", "privatize education", "cut education funding"])
  else none

/-- Number of hits of a lexicon in the lowercased text
(`lexicon.filter(i => lowerText.includes(i)).length`). -/
def hitCount (lowerText : String) (lexicon : List String) : Nat :=
  (lexicon.filter (fun i => jsIncludes lowerText i)).length

/-- `supportScore` of `analyzePosition`: generic plus topic-specific support hits. -/
def supportScoreOf (text topic : String) : Nat :=
  let lowerText := jsToLower text
  hitCount lowerText supportIndicators +
    (match getTopicIndicators topic with
     | some ti => hitCount lowerText ti.1
     | none => 0)

/-- `opposeScore` of `analyzePosition`: generic plus topic-specific oppose hits. -/
def opposeScoreOf (text topic : String) : Nat :=
  let lowerText := jsToLower text
  hitCount lowerText opposeIndicators +
    (match getTopicIndicators topic with
     | some ti => hitCount lowerText ti.2
     | none => 0)

/-- `strengthScore` of `analyzePosition`. -/
def strengthScoreOf (text : String) : Nat :=
  hitCount (jsToLower text) strongIndicators

/-- The stance decision of `analyzePosition` (lines 929-942): given the three
scores, the `(position, confidence)` pair; confidence in hundredths
(`0.9 ↦ 90`, `0.3 + score*0.15 + strength*0.1 ↦ 30 + score*15 + strength*10`,
and so on). -/
def positionDecision (supportScore opposeScore strengthScore : Nat) : String × Nat :=
  if supportScore > opposeScore then
    ("support", min 90 (30 + (supportScore * 15) + (strengthScore * 10)))
  else if opposeScore > supportScore then
    ("oppose", min 90 (30 + (opposeScore * 15) + (strengthScore * 10)))
  else if supportScore > 0 || opposeScore > 0 then
    ("mixed", min 70 (20 + ((supportScore + opposeScore) * 10)))
  else
    ("neutral", 10)

/-- `extractKeyPhrases(text, topic, position)` (lines 990-1018).  For each
sentence longer than 20 chars it evaluates `this.coreTopics[topic]?.some(...)`,
which throws a `TypeError` because `this.coreTopics` is `undefined`. -/
def extractKeyPhrases (text topic position : String) :
    Except JsError (List String) := do
  let sentences := longSentences text
  let positionWords :=
    if position == "support" then
      ["support", "advocate", "believe", "committed", "will fight"]
    else
      ["oppose", "against", "reject", "block", "stop"]
  let keyPhrases ← sentences.foldlM (fun (acc : List String) sentence => do
    let lowerSentence := jsToLower sentence
    let topicList ← jsIndexCoreTopics topic
    let hasTopicKeyword :=
      (match topicList with
       | some kws => kws.any (fun keyword => jsIncludes lowerSentence (jsToLower keyword))
       | none => false) ||
      jsIncludes lowerSentence (jsToLower topic)
    let hasPositionIndicator := positionWords.any (fun w => jsIncludes lowerSentence w)
    if hasTopicKeyword && hasPositionIndicator && (jsTrim sentence).length < 200 then
      pure (acc ++ [jsTrim sentence])
    else
      pure acc) []
  return keyPhrases.take 3

/-- The record returned by `analyzePosition`. -/
structure Analysis where
  position : String
  confidence : Nat
  strength : String
  supportScore : Nat
  opposeScore : Nat
  keyPhrases : List String
deriving DecidableEq, Repr

/-- `analyzePosition(text, topic)` (lines 877-955). -/
def analyzePosition (text topic : String) : Except JsError Analysis := do
  let supportScore := supportScoreOf text topic
  let opposeScore := opposeScoreOf text topic
  let strengthScore := strengthScoreOf text
  let pc := positionDecision supportScore opposeScore strengthScore
  let keyPhrases ← extractKeyPhrases text topic pc.1
  return { position := pc.1
           confidence := pc.2
           strength := if strengthScore > 0 then "strong" else "moderate"
           supportScore := supportScore
           opposeScore := opposeScore
           keyPhrases := keyPhrases }

/-! ### Taxonomy Store (`initializeTopicMappings`, lines 127-236) -/

/-- A row of the `policy_topics` table. -/
structure TopicRow where
  id : Nat
  canonical_name : String
  display_name : String
deriving DecidableEq, Repr

/-- A row of the `topic_aliases` table. -/
structure AliasRow where
  topic_id : Nat
  aliasStr : String
  confidence_score : Nat
deriving DecidableEq, Repr

/-- The seed data of one topic in the local `coreTopics` constant. -/
structure TopicSeed where
  canonical_name : String
  display_name : String
  aliases : List String
deriving DecidableEq, Repr

/-- The local `coreTopics` seed constant of `initializeTopicMappings`
(descriptions omitted: they are never read by the pipeline). -/
def coreTopicsSeed : List TopicSeed :=
  [⟨"healthcare", "Healthcare",
    ["health", "medical", "medicine", "insurance", "medicare", "medicaid", "aca", "obamacare", "affordable care act"]⟩,
   ⟨"immigration", "Immigration",
    ["border", "asylum", "citizenship", "daca", "refugees", "visa", "deportation"]⟩,
   ⟨"economy", "Economy",
    ["jobs", "employment", "trade", "commerce", "business", "fiscal", "economic", "gdp", "recession"]⟩,
   ⟨"housing", "Housing",
    ["affordable housing", "homeownership", "rental", "mortgage", "real estate", "homelessness"]⟩,
   ⟨"education", "Education",
    ["schools", "students", "teachers", "college", "university", "student loans", "education funding"]⟩,
   ⟨"environment", "Environment",
    ["climate", "clean energy", "renewable energy", "pollution", "conservation", "green new deal", "carbon"]⟩,
   ⟨"defense", "National Defense",
    ["military", "veterans", "national security", "armed forces", "defense spending", "pentagon"]⟩,
   ⟨"civil_rights", "Civil Rights",
    ["voting rights", "equality", "discrimination", "lgbtq", "racial justice", "civil liberties"]⟩,
   ⟨"criminal_justice", "Criminal Justice",
    ["police", "law enforcement", "prison", "criminal justice reform", "sentencing", "crime"]⟩,
   ⟨"taxation", "Taxation",
    ["taxes", "tax reform", "tax cuts", "tax policy", "irs", "revenue"]⟩,
   ⟨"social_security", "Social Security",
    ["retirement", "disability", "social security benefits", "seniors"]⟩,
   ⟨"technology", "Technology",
    ["internet", "privacy", "cybersecurity", "tech", "digital", "data protection", "ai", "artificial intelligence"]⟩]

/-- The `policy_topics` table after bootstrap on a fresh database:
AUTOINCREMENT ids 1..12 in seed order. -/
def seededTopics : List TopicRow :=
  coreTopicsSeed.enum.map (fun p => ⟨p.1 + 1, p.2.canonical_name, p.2.display_name⟩)

/-- `INSERT OR IGNORE` under `UNIQUE (topic_id, alias)`: a row whose
`(topic_id, alias)` key is already in the table is dropped, every other row
is appended. -/
def insertOrIgnoreAliases (seen : List (Nat × String)) :
    List AliasRow → List AliasRow
  | [] => []
  | r :: rest =>
    if seen.any (fun k => k.1 == r.topic_id && k.2 == r.aliasStr) then
      insertOrIgnoreAliases seen rest
    else
      r :: insertOrIgnoreAliases ((r.topic_id, r.aliasStr) :: seen) rest

/-- The alias rows inserted for one topic: canonical name (weight 1.0),
lowercased display name (weight `1.0 ↦ 100`), then each seed alias lowercased
(weight `0.8 ↦ 80`). -/
def aliasRowsFor (tid : Nat) (seed : TopicSeed) : List AliasRow :=
  insertOrIgnoreAliases []
    (⟨tid, seed.canonical_name, 100⟩ ::
     ⟨tid, jsToLower seed.display_name, 100⟩ ::
     seed.aliases.map (fun a => ⟨tid, jsToLower a, 80⟩))

/-- The `topic_aliases` table after bootstrap on a fresh database. -/
def seededAliases : List AliasRow :=
  (coreTopicsSeed.enum.map (fun p => aliasRowsFor (p.1 + 1) p.2)).flatten

/-! ### Topic Classifier (`identifyTopics`, lines 700-729) -/

/-- A topic match produced by `identifyTopics` (or the URL hint). -/
structure TopicMatch where
  id : Nat
  canonical_name : String
  display_name : String
  confidence : Nat
deriving DecidableEq, Repr

/-- The join `policy_topics JOIN topic_aliases` read by `identifyTopics`,
in table order. -/
def seededTopicAliases : List (TopicRow × AliasRow) :=
  (seededTopics.map (fun t =>
    (seededAliases.filter (fun a => a.topic_id == t.id)).map (fun a => (t, a)))).flatten

/-- One step of the `allTopicAliases.forEach` accumulation: if the alias
matched, either push a new topic or raise an existing entry to the larger
weight. -/
def addTopicMatch (topics : List TopicMatch) (t : TopicRow) (a : AliasRow) :
    List TopicMatch :=
  if topics.any (fun tm => tm.id == t.id) then
    topics.map (fun tm =>
      if tm.id == t.id && a.confidence_score > tm.confidence then
        { tm with confidence := a.confidence_score }
      else tm)
  else
    topics ++ [⟨t.id, t.canonical_name, t.display_name, a.confidence_score⟩]

/-- `identifyTopics(text)`: substring-match every alias against the lowercased
text; one entry per topic with the maximal matching weight. -/
def identifyTopics (text : String) : List TopicMatch :=
  let lowerText := jsToLower text
  seededTopicAliases.foldl (fun topics ta =>
    if jsIncludes lowerText ta.2.aliasStr then addTopicMatch topics ta.1 ta.2
    else topics) []

/-- `getTopicByCanonicalName(canonicalName)` against the seeded table. -/
def getTopicByCanonicalName (canonicalName : String) : Option TopicRow :=
  seededTopics.find? (fun t => t.canonical_name == canonicalName)

/-! ### Position summary and key-issue detection (lines 734-805) -/

/-- `extractPositionSummary(text, topic, analysis)` (lines 734-786).  The
topic-keyword test reads `this.coreTopics[topic.canonical_name]` (after two
short-circuiting `includes` tests), which throws when reached. -/
def extractPositionSummary (text : String) (topic : TopicMatch)
    (analysis : Option Analysis) : Except JsError String := do
  let sentences := longSentences text
  if (match analysis with
      | some a => !a.keyPhrases.isEmpty
      | none => false) then
    match analysis with
    | some a => return jsJoin ". " (a.keyPhrases.take 2) ++ "."
    | none => return "."
  else
  let relevantSentences ← sentences.foldlM (fun (acc : List String) sentence => do
    let lowerSentence := jsToLower sentence
    let hasTopicKeyword ←
      if jsIncludes lowerSentence (jsToLower topic.canonical_name) then pure true
      else if jsIncludes lowerSentence (jsToLower topic.display_name) then pure true
      else do
        let kws ← jsIndexCoreTopics topic.canonical_name
        pure ((kws.getD []).any (fun keyword => jsIncludes lowerSentence (jsToLower keyword)))
    let hasPositionIndicator :=
      ["support", "oppose", "believe", "advocate", "against",
       "committed", "will fight", "priority", "important"].any
        (fun ind => jsIncludes lowerSentence ind)
    if hasTopicKeyword && hasPositionIndicator then
      pure (acc ++ [jsTrim sentence])
    else if hasTopicKeyword && (jsTrim sentence).length > 50 then
      pure (acc ++ [jsTrim sentence])
    else
      pure acc) []
  if !relevantSentences.isEmpty then
    return jsJoin ". " (relevantSentences.take 2) ++ "."
  else
  let fallbackSentences := sentences.filter (fun sentence =>
    let lowerSentence := jsToLower sentence
    jsIncludes lowerSentence (jsToLower topic.canonical_name) ||
      jsIncludes lowerSentence (jsToLower topic.display_name))
  if !fallbackSentences.isEmpty then
    return jsJoin ". " (fallbackSentences.take 2) ++ "."
  else
    return jsJoin ". " (sentences.take 2) ++ "."

/-- A transient content section (the object built by `findContentSections`). -/
structure ContentSection where
  selector : String
  title : String
  text : String
  isKeySection : Bool
  hasStructuredContent : Bool
deriving DecidableEq, Repr

/-- `isKeyIssue(section)` (lines 791-805). -/
def isKeyIssue (sec : ContentSection) : Bool :=
  let text := jsToLower sec.text
  ["priority", "key issue", "important", "focus", "commitment",
   "champion", "fight for", "dedicated to"].any
    (fun indicator => jsIncludes text indicator)

/-- A position object built by `extractPolicyPositions` (lines 549-560). -/
structure PositionRec where
  topic_id : Nat
  position_summary : String
  position_details : String
  is_key_issue : Bool
  source_url : String
  source_section : String
  confidence_score : Nat
  stance : String
  strength : String
  key_phrases : String
deriving DecidableEq, Repr

/-! ### Position extraction per section (`extractPolicyPositions`, lines 521-571) -/

/-- The topic list analyzed for one section: `identifyTopics` of the section
text, with the URL-hint topic (confidence `0.9 ↦ 90`) prepended when present and
not already matched. -/
def consideredTopics (secText : String) (hintTopic : Option String) :
    List TopicMatch :=
  let topics := identifyTopics secText
  match hintTopic with
  | none => topics
  | some h =>
    match getTopicByCanonicalName h with
    | none => topics
    | some t =>
      if topics.any (fun tm => tm.id == t.id) then topics
      else ⟨t.id, t.canonical_name, t.display_name, 90⟩ :: topics

/-- The body of the `topics.forEach` for one `(section, topic)` pair: analyze,
gate on `confidence > 0.2 && position !== neutral`, build the position object,
and gate on `position_summary.length > 20` (the confidence gate `> 0.2` is
`> 20` in hundredths). -/
def topicPosition (sec : ContentSection) (sourceUrl : String)
    (topic : TopicMatch) : Except JsError (List PositionRec) := do
  let analysis ← analyzePosition sec.text topic.canonical_name
  if analysis.confidence > 20 && analysis.position != "neutral" then
    let positionSummary ← extractPositionSummary sec.text topic (some analysis)
    let p : PositionRec :=
      { topic_id := topic.id
        position_summary := positionSummary
        position_details := jsTake sec.text 1500
        is_key_issue := isKeyIssue sec || analysis.strength == "strong"
        source_url := sourceUrl
        source_section := if sec.title != "" then sec.title else sec.selector
        confidence_score := min topic.confidence analysis.confidence
        stance := analysis.position
        strength := analysis.strength
        key_phrases := jsJoin "; " analysis.keyPhrases }
    if p.position_summary.length > 20 then
      return [p]
    else
      return []
  else
    return []

/-- The positions contributed by one content section. -/
def sectionPositions (sec : ContentSection) (sourceUrl : String)
    (hintTopic : Option String) : Except JsError (List PositionRec) := do
  (consideredTopics sec.text hintTopic).foldlM
    (fun acc topic => do
      let ps ← topicPosition sec sourceUrl topic
      pure (acc ++ ps)) []

/-- `extractPolicyPositions($, sourceUrl, hintTopic)` over the extracted content
sections; a thrown exception aborts the whole extraction. -/
def extractPolicyPositions (sections : List ContentSection) (sourceUrl : String)
    (hintTopic : Option String) : Except JsError (List PositionRec) := do
  sections.foldlM (fun acc sec => do
    let ps ← sectionPositions sec sourceUrl hintTopic
    pure (acc ++ ps)) []

/-! ### JS array helpers: `filter`/`findIndex` dedup and the stable `sort` -/

/-- JS `arr.filter((x, i, self) => i === self.findIndex(y => key(y) === key(x)))`:
keep each element whose index is the first index carrying its key. -/
def jsDedupBy {α β : Type} [DecidableEq β] (key : α → β) (l : List α) : List α :=
  (l.enum.filter (fun ie => l.findIdx (fun x => key x == key ie.2) == ie.1)).map
    Prod.snd

/-- Stable insertion step: place `x` before the first `y` with `before x y`. -/
def jsSortInsert {α : Type} (before : α → α → Bool) (x : α) :
    List α → List α
  | [] => [x]
  | y :: ys => if before x y then x :: y :: ys else y :: jsSortInsert before x ys

/-- Stable sort (V8 `Array.prototype.sort` is stable): insertion sort where
`before x y` means the comparator orders `x` strictly before `y`. -/
def jsSort {α : Type} (before : α → α → Bool) (l : List α) : List α :=
  l.foldr (jsSortInsert before) []

/-! ### Content Extractor (`findContentSections`, lines 591-677) -/

/-- An element matched by one of the 28 structural selectors, abstracted from
the cheerio DOM: its selector, trimmed text, extracted title, and the two
derived booleans (`isKeySection($el)` / `hasStructuredContent($el)`, which
are DOM-side computations). -/
structure ElementMatch where
  selector : String
  text : String
  title : String
  isKeySection : Bool
  hasStructuredContent : Bool
deriving DecidableEq, Repr

/-- A parsed page, abstracted from the cheerio DOM: the matched elements in
selector order, the meta description (if the tag exists) and the page title. -/
structure Page where
  matchList : List ElementMatch
  metaDescription : Option String
  pageTitle : String
deriving DecidableEq, Repr

/-- The section object pushed for one matched element (text truncated to
3000 chars). -/
def sectionOfMatch (m : ElementMatch) : ContentSection :=
  ⟨m.selector, m.title, jsTake m.text 3000, m.isKeySection, m.hasStructuredContent⟩

/-- The candidate sections before dedup/rank: matched elements kept when
`text.length > 100 && text.length < 5000`, then the meta-description section
when `metaDescription && metaDescription.length > 50`. -/
def candidateSections (page : Page) : List ContentSection :=
  (page.matchList.filter (fun m => m.text.length > 100 && m.text.length < 5000)).map
      sectionOfMatch ++
    (match page.metaDescription with
     | some d =>
       if d != "" && d.length > 50 then
         [⟨"meta[description]", page.pageTitle, d, true, false⟩]
       else []
     | none => [])

/-- The ranking score `2 * isKeySection + 1 * hasStructuredContent`. -/
def sectionScore (s : ContentSection) : Nat :=
  (if s.isKeySection then 2 else 0) + (if s.hasStructuredContent then 1 else 0)

/-- `findContentSections($)`: candidates, deduplicated on the first 200 chars
of the text, sorted by score descending, truncated to 15. -/
def findContentSections (page : Page) : List ContentSection :=
  (jsSort (fun a b => sectionScore b < sectionScore a)
      (jsDedupBy (fun s => jsTake s.text 200) (candidateSections page))).take 15

/-! ### URL model (`new URL`, restricted to `scheme://host/path?query` shapes) -/

/-- Split a char list at the first occurrence of `pat`, returning the part
before and the part after `pat`. -/
def breakOnChars (pat : List Char) : List Char → Option (List Char × List Char)
  | [] => if pat.isEmpty then some ([], []) else none
  | c :: rest =>
    if pat.isPrefixOf (c :: rest) then some ([], (c :: rest).drop pat.length)
    else
      match breakOnChars pat rest with
      | some (pre, post) => some (c :: pre, post)
      | none => none

/-- The components of a parsed URL that the crawler reads. -/
structure UrlParts where
  protocol : String
  hostname : String
  pathname : String
  search : String
deriving DecidableEq, Repr

/-- Model of `new URL(s)` for absolute URLs of the shape
`scheme://host[/path][?query]` (no userinfo, port or fragment, which never
occur in the analyzed data): yields the `protocol` (with trailing colon),
`hostname`, `pathname` (defaulting to `/`) and `search`.  `none` models the
`TypeError: Invalid URL` thrown on a string without a scheme. -/
def parseUrl (s : String) : Option UrlParts :=
  match breakOnChars [':', '/', '/'] s.data with
  | none => none
  | some (proto, rest) =>
    if proto.isEmpty then none
    else
      let host := rest.takeWhile (fun c => !(c == '/' || c == '?'))
      if host.isEmpty then none
      else
        let tail := rest.drop host.length
        let path := tail.takeWhile (fun c => !(c == '?'))
        let query := tail.drop path.length
        some ⟨⟨proto ++ [':']⟩, ⟨host⟩, if path.isEmpty then "/" else ⟨path⟩, ⟨query⟩⟩

/-! ### Page Discovery (`discoverPolicyPages`, lines 403-517) -/

/-- An `a[href]` element, abstracted from the DOM. -/
structure Anchor where
  href : String
  text : String
deriving DecidableEq, Repr

/-- A discovered policy page candidate. -/
structure PolicyPage where
  url : String
  text : String
  topic : Option String
deriving DecidableEq, Repr

def policyPatterns : List String :=
  ["/legislation/", "/issues/", "/policy/", "/positions/",
   "/priorities/", "/agenda/", "/platform/"]

def topicPatterns : List String :=
  ["healthcare", "health", "medical",
   "immigration", "border",
   "economy", "economic", "jobs",
   "housing", "affordable-housing",
   "education", "schools",
   "environment", "climate", "energy",
   "defense", "military", "veterans",
   "civil-rights", "voting",
   "criminal-justice", "justice",
   "tax", "taxes",
   "social-security", "retirement",
   "technology", "privacy", "cybersecurity"]

/-- The `topicMap` of `detectTopicFromUrl`, in object-key insertion order
(the deterministic `Object.entries` order). -/
def topicMapEntries : List (String × List String) :=
  [("healthcare", ["health", "medical", "medicare", "medicaid", "aca"]),
   ("immigration", ["immigration", "border", "asylum", "citizenship"]),
   ("economy", ["economy", "economic", "jobs", "employment", "trade"]),
   ("housing", ["housing", "affordable", "mortgage", "rent"]),
   ("education", ["education", "school", "student", "college"]),
   ("environment", ["environment", "climate", "energy", "green"]),
   ("defense", ["defense", "military", "veteran", "security"]),
   ("civil_rights", ["civil", "rights", "voting", "equality"]),
   ("criminal_justice", ["justice", "criminal", "police", "crime"]),
   ("taxation", ["tax", "taxes", "revenue", "fiscal"]),
   ("social_security", ["social", "security", "retirement", "senior"]),
   ("technology", ["technology", "tech", "privacy", "cyber"])]

/-- `detectTopicFromUrl(path, linkText)`: the first topic one of whose
keywords occurs in `path + " " + linkText` lowercased. -/
def detectTopicFromUrl (path linkText : String) : Option String :=
  let combined := jsToLower (path ++ " " ++ linkText)
  (topicMapEntries.find? (fun e =>
    e.2.any (fun keyword => jsIncludes combined keyword))).map Prod.fst

/-- The `fullUrl` computed for one href: absolute `http...` hrefs are taken
as-is, root-relative hrefs are prefixed with the base protocol and host, and
every other href is skipped (`return` — it is *not* resolved against the
base URL). -/
def resolveHref (base : UrlParts) (href : String) : Option String :=
  if jsStartsWith href "http" then some href
  else if jsStartsWith href "/" then
    some (base.protocol ++ "//" ++ base.hostname ++ href)
  else none

/-- The candidate pushed for one anchor, if any: unparsable URLs and foreign
hosts are skipped; the link is kept when its path matches a policy pattern or
its path or text matches a topic pattern. -/
def anchorCandidate (base : UrlParts) (a : Anchor) : List PolicyPage :=
  let linkText := jsToLower (jsTrim a.text)
  match resolveHref base a.href with
  | none => []
  | some fullUrl =>
    match parseUrl fullUrl with
    | none => []
    | some u =>
      if u.hostname != base.hostname then []
      else
        let path := jsToLower u.pathname
        let matchesPattern := policyPatterns.any (fun pat => jsIncludes path pat)
        let matchesTopic := topicPatterns.any (fun t =>
          jsIncludes path t || jsIncludes linkText t)
        if matchesPattern || matchesTopic then
          [⟨fullUrl, linkText, detectTopicFromUrl path linkText⟩]
        else []

/-- `discoverPolicyPages($, baseUrl)`: collect candidates over the anchors,
deduplicate by URL, and keep the first 15.  An unparsable `baseUrl` throws. -/
def discoverPolicyPages (anchors : List Anchor) (baseUrl : String) :
    Except String (List PolicyPage) :=
  match parseUrl baseUrl with
  | none => .error "Invalid URL"
  | some base =>
    .ok ((jsDedupBy (fun p => p.url)
        ((anchors.map (anchorCandidate base)).flatten)).take 15)

/-! ### Fetcher (`fetchWebsiteContent`, lines 339-398) -/

/-- The outcome of one HTTP request attempt, as observed by the handlers
installed on the request: a response (status code, status message, optional
`Location` header, body), an `error` event with a message, or a `timeout`
event. -/
inductive NetEvent where
  | response (statusCode : Nat) (statusMessage : String)
      (location : Option String) (body : String)
  | reqError (message : String)
  | reqTimeout
deriving DecidableEq, Repr

/-- The settled result of the fetch promise. -/
inductive FetchResult where
  | ok (body : String)
  | err (message : String)
  | diverge
deriving DecidableEq, Repr

/-- `this.maxRetries` (constructor). -/
def maxRetries : Nat := 3

/-- Model of `fetchWebsiteContent(url, retryCount)`.  `events k` is the
outcome of the `k`-th request issued; the returned list records the
`setTimeout` delays (ms) taken before retries.  The source bounds retries by
`maxRetries` but puts no bound on redirect recursion, so the model carries
`fuel`; `diverge` marks fuel exhaustion.

Per the source: a 3xx response with a `Location` header re-invokes the fetch
on the target with the same `retryCount`; any other non-200 status rejects
immediately with `HTTP <code>: <message>`; an `error` event retries after
`1000 * (retryCount + 1)` ms while `retryCount < maxRetries` and otherwise
rejects with the underlying message; a `timeout` event destroys the request
and rejects immediately with `Request timeout` — the promise is already
settled, so the retry path cannot affect the outcome. -/
def fetchModel (events : Nat → NetEvent) : Nat → Nat → String → Nat →
    FetchResult × List Nat
  | 0, _, _, _ => (.diverge, [])
  | fuel + 1, k, url, retryCount =>
    match events k with
    | .response statusCode statusMessage location body =>
      match location with
      | some loc =>
        if 300 ≤ statusCode && statusCode < 400 then
          fetchModel events fuel (k + 1) loc retryCount
        else if statusCode != 200 then
          (.err ("HTTP " ++ toString statusCode ++ ": " ++ statusMessage), [])
        else (.ok body, [])
      | none =>
        if statusCode != 200 then
          (.err ("HTTP " ++ toString statusCode ++ ": " ++ statusMessage), [])
        else (.ok body, [])
    | .reqError message =>
      if retryCount < maxRetries then
        let rest := fetchModel events fuel (k + 1) url (retryCount + 1)
        (rest.1, 1000 * (retryCount + 1) :: rest.2)
      else (.err message, [])
    | .reqTimeout => (.err "Request timeout", [])

/-! ### Position Store (`savePosition`, lines 1023-1044) -/

/-- A row of the `politician_positions` table.  The table has
`UNIQUE (politician_id, topic_id)`. -/
structure PositionRow where
  politician_id : String
  topic_id : Nat
  position_summary : String
  position_details : String
  is_key_issue : Bool
  source_url : String
  source_section : String
  confidence_score : Nat
  stance : String
  strength : String
  key_phrases : String
deriving DecidableEq, Repr

/-- JS `x || dflt` for strings: the default replaces a falsy (empty) value. -/
def jsOrDefault (x dflt : String) : String :=
  if x == "" then dflt else x

/-- The row written by `savePosition` for `(politicianId, position)`
(with the `|| neutral / || moderate / ||` empty-string defaults of the
bound parameters). -/
def savedRow (politicianId : String) (p : PositionRec) : PositionRow :=
  { politician_id := politicianId
    topic_id := p.topic_id
    position_summary := p.position_summary
    position_details := p.position_details
    is_key_issue := p.is_key_issue
    source_url := p.source_url
    source_section := p.source_section
    confidence_score := p.confidence_score
    stance := jsOrDefault p.stance "neutral"
    strength := jsOrDefault p.strength "moderate"
    key_phrases := p.key_phrases }

/-- `savePosition(politicianId, position)`: `INSERT OR REPLACE` under the
unique `(politician_id, topic_id)` pair — every conflicting row is deleted
and the new row is inserted. -/
def savePosition (table : List PositionRow) (politicianId : String)
    (p : PositionRec) : List PositionRow :=
  (table.filter (fun r =>
      !(r.politician_id == politicianId && r.topic_id == p.topic_id))) ++
    [savedRow politicianId p]

/-- The rows of the table for one `(politician, topic)` pair. -/
def rowsFor (table : List PositionRow) (politicianId : String) (topicId : Nat) :
    List PositionRow :=
  table.filter (fun r => r.politician_id == politicianId && r.topic_id == topicId)

/-! ### Crawl log and Scheduler (lines 241-269, 1049-1098) -/

/-- A politician row (the subject directory). -/
structure Politician where
  id : String
  name : String
  website : Option String
deriving DecidableEq, Repr

/-- A row of the `crawl_log` table.  `crawled_at` is the insertion time in
milliseconds on an absolute axis (queries compare it against `now`). -/
structure CrawlLogRow where
  politician_id : String
  website_url : String
  crawl_status : String
  positions_found : Nat
  error_message : Option String
  crawl_duration_ms : Nat
  crawled_at : Int
deriving DecidableEq, Repr

/-- SQLite `x LIKE '%pat%'` on a nullable column: `NULL` never matches;
`LIKE` is case-insensitive on ASCII. -/
def sqlLikeContains (x : Option String) (pat : String) : Bool :=
  match x with
  | none => false
  | some s => jsIncludes (jsToLower s) (jsToLower pat)

/-- One day in JS epoch milliseconds (`1000 * 60 * 60 * 24`). -/
def msPerDay : Int := 86400000

/-- The three `NOT IN` subqueries of `getPoliticiansWithWebsites`: the
politician has a log entry of the given status, matching the given
error-message pattern, younger than `windowDays` days. -/
def hasLogWithin (log : List CrawlLogRow) (pid : String) (status : String)
    (pat : Option String) (windowDays : Int) (now : Int) : Bool :=
  log.any (fun e =>
    e.politician_id == pid && e.crawl_status == status &&
    (match pat with
     | none => true
     | some p => sqlLikeContains e.error_message p) &&
    e.crawled_at > now - windowDays * msPerDay)

/-- Stable ascending insertion sort on names (`ORDER BY p.name`). -/
def sortByName (l : List Politician) : List Politician :=
  jsSort (fun a b => decide (a.name < b.name)) l

/-- `getPoliticiansWithWebsites()` (lines 241-269): politicians with a
non-null, non-empty website, excluding anyone with a `success` entry younger
than 7 days, an `error` entry matching `%ENOTFOUND%` younger than 30 days, or
an `error` entry matching `%403%` younger than 7 days; ordered by name. -/
def getPoliticiansWithWebsites (politicians : List Politician)
    (log : List CrawlLogRow) (now : Int) : List Politician :=
  sortByName (politicians.filter (fun p =>
    (match p.website with | none => false | some w => w != "") &&
    !hasLogWithin log p.id "success" none 7 now &&
    !hasLogWithin log p.id "error" (some "ENOTFOUND") 30 now &&
    !hasLogWithin log p.id "error" (some "403") 7 now))

/-- The most recent log entry for a politician
(`ORDER BY crawled_at DESC LIMIT 1`). -/
def mostRecentLog (log : List CrawlLogRow) (pid : String) :
    Option CrawlLogRow :=
  (log.filter (fun e => e.politician_id == pid)).foldl (fun acc e =>
    match acc with
    | none => some e
    | some a => if e.crawled_at > a.crawled_at then some e else some a) none

/-- JS `s.includes(pat)` on a nullable value (`msg && msg.includes(pat)`). -/
def optIncludes (x : Option String) (pat : String) : Bool :=
  match x with
  | none => false
  | some s => jsIncludes s pat

/-- `shouldSkipPolitician(politicianId, websiteUrl)` (lines 1062-1098).
The source compares `daysSince = (now - crawled_at) / 86400000 < w`; dividing
by the positive constant preserves order, so the scaled integer comparison
`now - crawled_at < w * msPerDay` takes the same branch. -/
def shouldSkipPolitician (log : List CrawlLogRow) (pid : String) (now : Int) :
    Bool :=
  match mostRecentLog log pid with
  | none => false
  | some recentLog =>
    let msSinceLastAttempt := now - recentLog.crawled_at
    if recentLog.crawl_status == "success" then
      msSinceLastAttempt < 7 * msPerDay
    else if recentLog.crawl_status == "error" then
      if optIncludes recentLog.error_message "ENOTFOUND" then
        msSinceLastAttempt < 30 * msPerDay
      else if optIncludes recentLog.error_message "403" then
        msSinceLastAttempt < 7 * msPerDay
      else
        msSinceLastAttempt < 1 * msPerDay
    else false

/-! ### Per-subject crawl (`extractPositionsFromWebsite`, lines 274-334, and
`logCrawlAttempt`, lines 1049-1057) -/

/-- The environment of one subject crawl, abstracting network and DOM:
the settled result of `fetchWebsiteContent` per URL, and the abstract parse
of a fetched body (content matches and anchors). -/
structure SubjectWorld where
  fetchRes : String → Except String String
  pageOf : String → Page
  anchorsOf : String → List Anchor

/-- The message of a `JsError`. -/
def jsErrorMessage : JsError → String
  | .typeError msg => msg

/-- The `try` block of `extractPositionsFromWebsite`: fetch the main page,
extract positions, discover policy pages, crawl each (failures swallowed
per page), and return all positions found. -/
def subjectPipeline (w : SubjectWorld) (website : String) :
    Except String (List PositionRec) := do
  let websiteContent ← w.fetchRes website
  if websiteContent == "" then
    throw "Failed to fetch website content"
  else do
  let page := w.pageOf websiteContent
  let positions ← (extractPolicyPositions (findContentSections page) website
      none).mapError jsErrorMessage
  let policyPages ← discoverPolicyPages (w.anchorsOf websiteContent) website
  policyPages.foldlM (fun acc policyPage =>
    -- inner try/catch: a failure on one policy page is logged and swallowed
    match (do
        let policyContent ← w.fetchRes policyPage.url
        if policyContent == "" then pure acc
        else do
          let ps ← (extractPolicyPositions
              (findContentSections (w.pageOf policyContent)) policyPage.url
              policyPage.topic).mapError jsErrorMessage
          pure (acc ++ ps) : Except String (List PositionRec)) with
    | .ok acc2 => pure acc2
    | .error _ => pure acc) positions

/-- The mutable store state threaded through a run. -/
structure CrawlState where
  positionsTable : List PositionRow
  crawlLog : List CrawlLogRow
  processedCount : Nat
  errorsCount : Nat
deriving DecidableEq, Repr

/-- `logCrawlAttempt(...)`: append one row to `crawl_log`. -/
def logCrawlAttempt (st : CrawlState) (pid websiteUrl status : String)
    (positionsFound : Nat) (errorMessage : Option String) (duration : Nat)
    (now : Int) : CrawlState :=
  { st with crawlLog := st.crawlLog ++
      [⟨pid, websiteUrl, status, positionsFound, errorMessage, duration, now⟩] }

/-- `extractPositionsFromWebsite(politician)`: run the pipeline; any exception
is caught, flips the status to `error` and records the message; exactly one
log row is appended either way.  `now`/`duration` stand for the wall-clock
values. -/
def extractPositionsFromWebsite (w : SubjectWorld) (p : Politician)
    (duration : Nat) (now : Int) (st : CrawlState) : CrawlState :=
  let website := (p.website.getD "")
  let st1 :=
    match subjectPipeline w website with
    | .ok positions =>
      let table := positions.foldl (fun t q => savePosition t p.id q) st.positionsTable
      let st' := { st with positionsTable := table }
      logCrawlAttempt st' p.id website "success" positions.length none duration now
    | .error msg =>
      let st' := { st with errorsCount := st.errorsCount + 1 }
      logCrawlAttempt st' p.id website "error" 0 (some msg) duration now
  { st1 with processedCount := st1.processedCount + 1 }

/-- The subject loop of `crawlAllPoliticians`: each politician is processed in
turn; a failure of one subject never aborts the run. -/
def crawlSubjects (w : SubjectWorld) (ps : List Politician) (duration : Nat)
    (now : Int) (st : CrawlState) : CrawlState :=
  ps.foldl (fun acc p => extractPositionsFromWebsite w p duration now acc) st

/-! ## Generic lemmas about the JS array helpers -/

theorem jsSortInsert_perm {α : Type} (before : α → α → Bool) (x : α)
    (l : List α) : (jsSortInsert before x l).Perm (x :: l) := by
  induction l with
  | nil => exact List.Perm.refl _
  | cons y ys ih =>
    rw [jsSortInsert]
    by_cases h : before x y = true
    · rw [if_pos h]
    · rw [if_neg h]
      exact (ih.cons y).trans (List.Perm.swap x y ys)

theorem jsSort_perm {α : Type} (before : α → α → Bool) (l : List α) :
    (jsSort before l).Perm l := by
  induction l with
  | nil => exact List.Perm.refl _
  | cons a l ih =>
    have : jsSort before (a :: l) = jsSortInsert before a (jsSort before l) := rfl
    rw [this]
    exact (jsSortInsert_perm before a (jsSort before l)).trans (ih.cons a)

theorem jsSortInsert_pairwise {α : Type} (before : α → α → Bool)
    (hasym : ∀ a b, before a b = true → before b a = false)
    (htrans : ∀ a b c, before b a = false → before c b = false →
      before c a = false)
    (x : α) (l : List α) (hl : l.Pairwise (fun a b => before b a = false)) :
    (jsSortInsert before x l).Pairwise (fun a b => before b a = false) := by
  induction l with
  | nil => simp [jsSortInsert]
  | cons y ys ih =>
    rw [jsSortInsert]
    rw [List.pairwise_cons] at hl
    by_cases h : before x y = true
    · rw [if_pos h]
      rw [List.pairwise_cons]
      constructor
      · intro z hz
        rcases List.mem_cons.mp hz with heq | hz'
        · rw [heq]; exact hasym x y h
        · exact htrans x y z (hasym x y h) (hl.1 z hz')
      · rw [List.pairwise_cons]
        exact hl
    · rw [if_neg h]
      rw [Bool.not_eq_true] at h
      rw [List.pairwise_cons]
      constructor
      · intro z hz
        have hz' : z ∈ x :: ys := (jsSortInsert_perm before x ys).mem_iff.mp hz
        rcases List.mem_cons.mp hz' with rfl | hz''
        · exact h
        · exact hl.1 z hz''
      · exact ih hl.2

theorem jsSort_pairwise {α : Type} (before : α → α → Bool)
    (hasym : ∀ a b, before a b = true → before b a = false)
    (htrans : ∀ a b c, before b a = false → before c b = false →
      before c a = false)
    (l : List α) :
    (jsSort before l).Pairwise (fun a b => before b a = false) := by
  induction l with
  | nil => simp [jsSort]
  | cons a l ih =>
    have : jsSort before (a :: l) = jsSortInsert before a (jsSort before l) := rfl
    rw [this]
    exact jsSortInsert_pairwise before hasym htrans a (jsSort before l) ih

theorem snd_mem_of_mem_enumFrom {α : Type} :
    ∀ (l : List α) (n : Nat) (p : Nat × α), p ∈ l.enumFrom n → p.2 ∈ l := by
  intro l
  induction l with
  | nil => intro n p h; simp [List.enumFrom] at h
  | cons a l ih =>
    intro n p h
    rw [List.enumFrom] at h
    rcases List.mem_cons.mp h with rfl | h'
    · exact List.mem_cons_self _ _
    · exact List.mem_cons_of_mem _ (ih (n + 1) p h')

theorem fst_le_of_mem_enumFrom {α : Type} :
    ∀ (l : List α) (n : Nat) (p : Nat × α), p ∈ l.enumFrom n → n ≤ p.1 := by
  intro l
  induction l with
  | nil => intro n p h; simp [List.enumFrom] at h
  | cons a l ih =>
    intro n p h
    rw [List.enumFrom] at h
    rcases List.mem_cons.mp h with rfl | h'
    · exact Nat.le_refl _
    · exact Nat.le_of_succ_le (ih (n + 1) p h')

theorem pairwise_fst_lt_enumFrom {α : Type} :
    ∀ (l : List α) (n : Nat),
      (l.enumFrom n).Pairwise (fun a b => a.1 < b.1) := by
  intro l
  induction l with
  | nil => intro n; simp [List.enumFrom]
  | cons a l ih =>
    intro n
    rw [List.enumFrom, List.pairwise_cons]
    exact ⟨fun p hp => Nat.lt_of_lt_of_le (Nat.lt_succ_self n)
      (fst_le_of_mem_enumFrom l (n + 1) p hp), ih (n + 1)⟩

theorem mem_of_mem_jsDedupBy {α β : Type} [DecidableEq β] (key : α → β)
    (l : List α) : ∀ x ∈ jsDedupBy key l, x ∈ l := by
  intro x hx
  rw [jsDedupBy] at hx
  rcases List.mem_map.mp hx with ⟨p, hp, rfl⟩
  exact snd_mem_of_mem_enumFrom l 0 p (List.mem_filter.mp hp).1

theorem jsDedupBy_pairwise {α β : Type} [DecidableEq β] (key : α → β)
    (l : List α) :
    (jsDedupBy key l).Pairwise (fun a b => key a ≠ key b) := by
  rw [jsDedupBy, List.pairwise_map]
  have h1 : (l.enum).Pairwise (fun a b : Nat × α => a.1 < b.1) :=
    pairwise_fst_lt_enumFrom l 0
  have h2 := h1.filter
    (fun ie => l.findIdx (fun x => key x == key ie.2) == ie.1)
  refine h2.imp_of_mem ?_
  intro a b ha hb hlt hkey
  have pa := (List.mem_filter.mp ha).2
  have pb := (List.mem_filter.mp hb).2
  simp only [beq_iff_eq] at pa pb
  have : (fun x => key x == key a.2) = (fun x => key x == key b.2) := by
    funext x; rw [hkey]
  rw [this, pb] at pa
  exact Nat.lt_irrefl _ (pa ▸ hlt)

/-! ## C2: Position Store upsert -/

theorem rowsFor_savePosition (table : List PositionRow) (pid : String)
    (p : PositionRec) :
    rowsFor (savePosition table pid p) pid p.topic_id = [savedRow pid p] := by
  rw [savePosition, rowsFor, List.filter_append]
  have h1 : (table.filter (fun r =>
      !(r.politician_id == pid && r.topic_id == p.topic_id))).filter
        (fun r => r.politician_id == pid && r.topic_id == p.topic_id) = [] := by
    rw [List.filter_eq_nil_iff]
    intro a ha
    have := (List.mem_filter.mp ha).2
    simp only [Bool.not_eq_true'] at this
    simp [this]
  rw [h1]
  simp [savedRow]

/-- C2.  After any sequence of `savePosition` (upsert) calls for the same
`(subject, topic)` pair — on top of any prior table — the positions table
contains exactly one row for that pair, and it is the row written by the most
recent call (all of whose fields come from that call's position object,
regardless of the confidence of earlier calls). -/
theorem savePosition_upsert_unique (table : List PositionRow) (pid : String)
    (tid : Nat) (saves : List PositionRec) (h1 : saves ≠ [])
    (h2 : ∀ p ∈ saves, p.topic_id = tid) :
    rowsFor (saves.foldl (fun t p => savePosition t pid p) table) pid tid
      = [savedRow pid (saves.getLast h1)] := by
  induction saves generalizing table with
  | nil => exact absurd rfl h1
  | cons p rest ih =>
    cases rest with
    | nil =>
      rw [List.foldl_cons, List.foldl_nil]
      have hlast : (p :: []).getLast h1 = p := rfl
      rw [hlast]
      have hp : p.topic_id = tid := h2 p (List.mem_cons_self p [])
      rw [← hp]
      exact rowsFor_savePosition table pid p
    | cons q rest' =>
      rw [List.foldl_cons]
      rw [List.getLast_cons (List.cons_ne_nil q rest')]
      apply ih
      exact fun r hr => h2 r (List.mem_cons_of_mem p hr)

/-- C2 witness: two successive upserts for `(subject p1, topic 3)` on an empty
table leave exactly the single row of the second call. -/
theorem savePosition_upsert_unique_witness :
    rowsFor ([⟨3, "first summary", "d1", false, "u1", "s1", 50, "support", "moderate", ""⟩,
       ⟨3, "second summary", "d2", true, "u2", "s2", 40, "oppose", "strong", "kp"⟩].foldl
        (fun t p => savePosition t "p1" p) []) "p1" 3
      = [savedRow "p1" ⟨3, "second summary", "d2", true, "u2", "s2", 40, "oppose", "strong", "kp"⟩] := by
  exact savePosition_upsert_unique [] "p1" 3
    [⟨3, "first summary", "d1", false, "u1", "s1", 50, "support", "moderate", ""⟩,
     ⟨3, "second summary", "d2", true, "u2", "s2", 40, "oppose", "strong", "kp"⟩]
    (by decide) (by decide)

/-! ## C5: the stance decision of `analyzePosition` -/

theorem analyzePosition_as_match (text topic : String) :
    analyzePosition text topic =
      (match extractKeyPhrases text topic
          (positionDecision (supportScoreOf text topic)
            (opposeScoreOf text topic) (strengthScoreOf text)).1 with
       | .error e => .error e
       | .ok kp => .ok
          { position := (positionDecision (supportScoreOf text topic)
              (opposeScoreOf text topic) (strengthScoreOf text)).1
            confidence := (positionDecision (supportScoreOf text topic)
              (opposeScoreOf text topic) (strengthScoreOf text)).2
            strength := if strengthScoreOf text > 0 then "strong" else "moderate"
            supportScore := supportScoreOf text topic
            opposeScore := opposeScoreOf text topic
            keyPhrases := kp }) := by
  rw [analyzePosition]
  cases extractKeyPhrases text topic
      (positionDecision (supportScoreOf text topic)
        (opposeScoreOf text topic) (strengthScoreOf text)).1 <;> rfl

theorem analyzePosition_ok_fields {text topic : String} {a : Analysis}
    (h : analyzePosition text topic = .ok a) :
    a.position = (positionDecision (supportScoreOf text topic)
        (opposeScoreOf text topic) (strengthScoreOf text)).1 ∧
    a.confidence = (positionDecision (supportScoreOf text topic)
        (opposeScoreOf text topic) (strengthScoreOf text)).2 ∧
    a.strength = (if strengthScoreOf text > 0 then "strong" else "moderate") ∧
    a.supportScore = supportScoreOf text topic ∧
    a.opposeScore = opposeScoreOf text topic := by
  rw [analyzePosition_as_match] at h
  cases hkp : extractKeyPhrases text topic
      (positionDecision (supportScoreOf text topic)
        (opposeScoreOf text topic) (strengthScoreOf text)).1 with
  | error e => rw [hkp] at h; exact absurd h (by simp)
  | ok kp =>
    rw [hkp] at h
    have := (Except.ok.injEq _ _).mp h
    rw [← this]
    exact ⟨rfl, rfl, rfl, rfl, rfl⟩

/-- C5.  The stance decision of `analyzePosition`: with confidences in
hundredths, `supportScore > opposeScore` yields stance `support` with
confidence `min 0.9 (0.3 + 0.15·supportScore + 0.1·strengthScore)`
(`min 90 (30 + 15·s + 10·st)` scaled); the symmetric rule for `oppose`; equal
nonzero scores yield `mixed` with `min 0.7 (0.2 + 0.1·(s+o))`; two zero
scores yield `neutral` with confidence `0.1`; and strength is `strong`
exactly when `strengthScore > 0`, else `moderate`.  The second conjunct ties
the decision to every normally-returned `analyzePosition` result. -/
theorem analyzePosition_stance_decision :
    (∀ s o st : Nat,
      (s > o → positionDecision s o st
          = ("support", min 90 (30 + s * 15 + st * 10))) ∧
      (o > s → positionDecision s o st
          = ("oppose", min 90 (30 + o * 15 + st * 10))) ∧
      (s = o → s > 0 → positionDecision s o st
          = ("mixed", min 70 (20 + (s + o) * 10))) ∧
      (s = 0 → o = 0 → positionDecision s o st = ("neutral", 10))) ∧
    (∀ (text topic : String) (a : Analysis),
      analyzePosition text topic = .ok a →
      a.position = (positionDecision (supportScoreOf text topic)
          (opposeScoreOf text topic) (strengthScoreOf text)).1 ∧
      a.confidence = (positionDecision (supportScoreOf text topic)
          (opposeScoreOf text topic) (strengthScoreOf text)).2 ∧
      a.supportScore = supportScoreOf text topic ∧
      a.opposeScore = opposeScoreOf text topic ∧
      a.strength = (if strengthScoreOf text > 0 then "strong" else "moderate")) := by
  constructor
  · intro s o st
    refine ⟨?_, ?_, ?_, ?_⟩
    · intro h
      simp [positionDecision, h]
    · intro h
      have h1 : ¬ s > o := Nat.lt_asymm h
      simp [positionDecision, h, h1]
    · intro he hpos
      have h1 : ¬ s > o := by omega
      have h2 : ¬ o > s := by omega
      simp only [positionDecision, h1, h2, if_false]
      have h3 : (decide (s > 0) || decide (o > 0)) = true := by
        simp only [Bool.or_eq_true, decide_eq_true_eq]
        exact Or.inl hpos
      simp [h3]
    · intro hs ho
      subst hs; subst ho
      simp [positionDecision]
  · intro text topic a h
    have hf := analyzePosition_ok_fields h
    exact ⟨hf.1, hf.2.1, hf.2.2.2.1, hf.2.2.2.2, hf.2.2.1⟩

/-- C5 witness: concrete scores `s=1, o=0, st=1` and the concrete text
`firmly support` (one support hit, one intensifier, no long sentence). -/
theorem analyzePosition_stance_decision_witness :
    positionDecision 1 0 1 = ("support", min 90 (30 + 1 * 15 + 1 * 10)) ∧
    ((⟨"support", 55, "strong", 1, 0, []⟩ : Analysis).position
      = (positionDecision (supportScoreOf "firmly support" "housing")
          (opposeScoreOf "firmly support" "housing")
          (strengthScoreOf "firmly support")).1) :=
  ⟨(analyzePosition_stance_decision.1 1 0 1).1 (by decide),
   (analyzePosition_stance_decision.2 "firmly support" "housing"
      ⟨"support", 55, "strong", 1, 0, []⟩ (by rfl)).1⟩

/-! ## C1: the unassigned `this.coreTopics` property -/

theorem extractKeyPhrases_long_sentence (text topic position : String)
    (h : longSentences text ≠ []) :
    extractKeyPhrases text topic position
      = .error (.typeError (undefReadMsg topic)) := by
  obtain ⟨s, ss, hss⟩ := List.exists_cons_of_ne_nil h
  simp only [extractKeyPhrases, hss, List.foldlM_cons]
  rfl

theorem analyzePosition_long_sentence (text topic : String)
    (h : longSentences text ≠ []) :
    analyzePosition text topic = .error (.typeError (undefReadMsg topic)) := by
  rw [analyzePosition_as_match]
  rw [extractKeyPhrases_long_sentence text topic _ h]

theorem topicPosition_long_sentence (sec : ContentSection) (url : String)
    (t : TopicMatch) (h : longSentences sec.text ≠ []) :
    topicPosition sec url t
      = .error (.typeError (undefReadMsg t.canonical_name)) := by
  unfold topicPosition
  rw [analyzePosition_long_sentence sec.text t.canonical_name h]
  rfl

theorem sectionPositions_long_sentence (sec : ContentSection) (url : String)
    (hint : Option String) (t : TopicMatch) (rest : List TopicMatch)
    (htop : consideredTopics sec.text hint = t :: rest)
    (h : longSentences sec.text ≠ []) :
    sectionPositions sec url hint
      = .error (.typeError (undefReadMsg t.canonical_name)) := by
  unfold sectionPositions
  rw [htop, List.foldlM_cons]
  rw [topicPosition_long_sentence sec url t h]
  rfl

/-- C1.  `this.coreTopics` is never assigned on the class, so for every text
with at least one sentence (split on `.!?`) of trimmed length over 20 chars,
`analyzePosition` — which always calls `extractKeyPhrases` — throws the
`TypeError` from indexing the `undefined` property; `extractPositionSummary`
likewise reaches `this.coreTopics[topic.canonical_name]` and throws; and for
such a section with at least one matched (or hinted) topic, classification
never returns normally: the section's position extraction propagates the
`TypeError` upward. -/
theorem coreTopics_undefined_always_throws :
    (∀ text topic : String, longSentences text ≠ [] →
      analyzePosition text topic = .error (.typeError (undefReadMsg topic))) ∧
    (extractPositionSummary "this sentence mentions nothing relevant at all"
        ⟨1, "healthcare", "Healthcare", 80⟩ none
      = .error (.typeError (undefReadMsg "healthcare"))) ∧
    (∀ (sec : ContentSection) (url : String) (hint : Option String)
        (t : TopicMatch) (rest : List TopicMatch),
      consideredTopics sec.text hint = t :: rest →
      longSentences sec.text ≠ [] →
      sectionPositions sec url hint
        = .error (.typeError (undefReadMsg t.canonical_name))) := by
  refine ⟨analyzePosition_long_sentence, by rfl, sectionPositions_long_sentence⟩

/-- C1 witness: a 43-char sentence makes `analyzePosition` throw, and a
section whose text matches topic `healthcare` makes the whole section
classification throw. -/
theorem coreTopics_undefined_always_throws_witness :
    analyzePosition "this is a sentence longer than twenty chars" "healthcare"
        = .error (.typeError (undefReadMsg "healthcare")) ∧
    sectionPositions
        ⟨"main", "", "i strongly support expanding medicare for all people",
          false, false⟩ "https://x.gov" none
        = .error (.typeError (undefReadMsg "healthcare")) :=
  ⟨coreTopics_undefined_always_throws.1
      "this is a sentence longer than twenty chars" "healthcare" (by decide),
   coreTopics_undefined_always_throws.2.2
      ⟨"main", "", "i strongly support expanding medicare for all people",
        false, false⟩ "https://x.gov" none
      ⟨1, "healthcare", "Healthcare", 80⟩ [] (by rfl) (by decide)⟩

/-! ## C4: the emission gate of `extractPolicyPositions` -/

theorem exceptBind_ok {ε α β : Type} (a : α) (f : α → Except ε β) :
    (Except.ok a >>= f) = f a := rfl

theorem seededTopicAliases_weight :
    ∀ ta ∈ seededTopicAliases, 20 < ta.2.confidence_score := by decide

theorem addTopicMatch_conf (topics : List TopicMatch) (t : TopicRow)
    (a : AliasRow) (ha : 20 < a.confidence_score)
    (ht : ∀ tm ∈ topics, 20 < tm.confidence) :
    ∀ tm ∈ addTopicMatch topics t a, 20 < tm.confidence := by
  unfold addTopicMatch
  by_cases hany : topics.any (fun tm => tm.id == t.id) = true
  · rw [if_pos hany]
    intro tm htm
    rcases List.mem_map.mp htm with ⟨tm0, htm0, hval⟩
    by_cases hc : (tm0.id == t.id && decide (a.confidence_score > tm0.confidence)) = true
    · rw [if_pos hc] at hval
      rw [← hval]
      exact ha
    · rw [if_neg hc] at hval
      rw [← hval]
      exact ht tm0 htm0
  · rw [if_neg hany]
    intro tm htm
    rcases List.mem_append.mp htm with h | h
    · exact ht tm h
    · rw [List.mem_singleton.mp h]
      exact ha

theorem identifyTopics_fold_conf :
    ∀ (rows : List (TopicRow × AliasRow)) (lowerText : String)
      (acc : List TopicMatch),
      (∀ ta ∈ rows, 20 < ta.2.confidence_score) →
      (∀ tm ∈ acc, 20 < tm.confidence) →
      ∀ tm ∈ rows.foldl (fun topics ta =>
        if jsIncludes lowerText ta.2.aliasStr then addTopicMatch topics ta.1 ta.2
        else topics) acc, 20 < tm.confidence := by
  intro rows
  induction rows with
  | nil =>
    intro _ acc _ hacc tm htm
    rw [List.foldl_nil] at htm
    exact hacc tm htm
  | cons ta rows ih =>
    intro lowerText acc hrows hacc tm htm
    rw [List.foldl_cons] at htm
    refine ih lowerText _ (fun x hx => hrows x (List.mem_cons_of_mem ta hx))
      ?_ tm htm
    intro tm0 htm0
    by_cases hinc : jsIncludes lowerText ta.2.aliasStr = true
    · rw [if_pos hinc] at htm0
      exact addTopicMatch_conf acc ta.1 ta.2
        (hrows ta (List.mem_cons_self ta rows)) hacc tm0 htm0
    · rw [if_neg hinc] at htm0
      exact hacc tm0 htm0

theorem identifyTopics_conf (text : String) :
    ∀ tm ∈ identifyTopics text, 20 < tm.confidence := by
  intro tm htm
  exact identifyTopics_fold_conf seededTopicAliases (jsToLower text) []
    seededTopicAliases_weight (by intro x hx; cases hx) tm htm

theorem consideredTopics_conf (text : String) (hint : Option String) :
    ∀ tm ∈ consideredTopics text hint, 20 < tm.confidence := by
  intro tm htm
  cases hint with
  | none =>
    simp only [consideredTopics] at htm
    exact identifyTopics_conf text tm htm
  | some h =>
    simp only [consideredTopics] at htm
    cases hh : getTopicByCanonicalName h with
    | none =>
      simp only [hh] at htm
      exact identifyTopics_conf text tm htm
    | some t =>
      simp only [hh] at htm
      by_cases hany : (identifyTopics text).any (fun tm => tm.id == t.id) = true
      · rw [if_pos hany] at htm
        exact identifyTopics_conf text tm htm
      · rw [if_neg hany] at htm
        rcases List.mem_cons.mp htm with heq | hmem
        · rw [heq]
          show (20 : Nat) < 90
          decide
        · exact identifyTopics_conf text tm hmem

theorem foldlM_append_ok {ε α β : Type} (f : α → Except ε (List β))
    (P : β → Prop) :
    ∀ (ts : List α) (acc ps : List β),
      (ts.foldlM (fun acc t => do
        let l ← f t
        pure (acc ++ l)) acc) = .ok ps →
      (∀ t ∈ ts, ∀ l, f t = .ok l → ∀ q ∈ l, P q) →
      (∀ q ∈ acc, P q) → ∀ q ∈ ps, P q := by
  intro ts
  induction ts with
  | nil =>
    intro acc ps h _ hacc
    rw [List.foldlM_nil] at h
    have h2 : (Except.ok acc : Except ε (List β)) = .ok ps := h
    rw [(Except.ok.injEq _ _).mp h2] at hacc
    exact hacc
  | cons t ts ih =>
    intro acc ps h hts hacc
    rw [List.foldlM_cons] at h
    cases hf : f t with
    | error e =>
      rw [hf] at h
      exact Except.noConfusion h
    | ok l =>
      rw [hf] at h
      have h2 : ts.foldlM (fun acc t => do
          let l ← f t
          pure (acc ++ l)) (acc ++ l) = .ok ps := h
      refine ih (acc ++ l) ps h2
        (fun x hx => hts x (List.mem_cons_of_mem t hx)) ?_
      intro q hq
      rcases List.mem_append.mp hq with hq1 | hq2
      · exact hacc q hq1
      · exact hts t (List.mem_cons_self t ts) l hf q hq2

theorem topicPosition_ok_prop (sec : ContentSection) (url : String)
    (tm : TopicMatch) (htm : 20 < tm.confidence) (l : List PositionRec)
    (h : topicPosition sec url tm = .ok l) :
    ∀ q ∈ l, q.stance ≠ "neutral" ∧ 20 < q.confidence_score := by
  unfold topicPosition at h
  cases ha : analyzePosition sec.text tm.canonical_name with
  | error e =>
    rw [ha] at h
    exact Except.noConfusion h
  | ok a =>
    rw [ha] at h
    simp only [exceptBind_ok] at h
    by_cases hgate :
        (decide (a.confidence > 20) && (a.position != "neutral")) = true
    · rw [if_pos hgate] at h
      cases hs : extractPositionSummary sec.text tm (some a) with
      | error e =>
        rw [hs] at h
        exact Except.noConfusion h
      | ok s =>
        rw [hs] at h
        simp only [exceptBind_ok] at h
        rw [Bool.and_eq_true] at hgate
        have hconf : 20 < a.confidence := of_decide_eq_true hgate.1
        have hpos : a.position ≠ "neutral" := by
          have := hgate.2
          simpa using this
        by_cases hlen : (s.length > 20)
        · rw [if_pos hlen] at h
          have h2 : l = _ := ((Except.ok.injEq _ _).mp h).symm
          rw [h2]
          intro q hq
          rw [List.mem_singleton.mp hq]
          exact ⟨hpos, lt_min htm hconf⟩
        · rw [if_neg hlen] at h
          have h2 : l = [] := ((Except.ok.injEq _ _).mp h).symm
          rw [h2]
          intro q hq
          cases hq
    · rw [if_neg hgate] at h
      have h2 : l = [] := ((Except.ok.injEq _ _).mp h).symm
      rw [h2]
      intro q hq
      cases hq

theorem sectionPositions_gate (sec : ContentSection) (url : String)
    (hint : Option String) (l : List PositionRec)
    (h : sectionPositions sec url hint = .ok l) :
    ∀ q ∈ l, q.stance ≠ "neutral" ∧ 20 < q.confidence_score := by
  refine foldlM_append_ok (fun tm => topicPosition sec url tm) _
    (consideredTopics sec.text hint) [] l h ?_ (by intro q hq; cases hq)
  intro tm htm l2 hl2
  exact topicPosition_ok_prop sec url tm
    (consideredTopics_conf sec.text hint tm htm) l2 hl2

theorem foldlM_append_nil {ε α β : Type} (f : α → Except ε (List β)) :
    ∀ (ts : List α) (acc ps : List β),
      (ts.foldlM (fun acc t => do
        let l ← f t
        pure (acc ++ l)) acc) = .ok ps →
      (∀ t ∈ ts, ∀ l, f t = .ok l → l = []) →
      ps = acc := by
  intro ts
  induction ts with
  | nil =>
    intro acc ps h _
    rw [List.foldlM_nil] at h
    have h2 : (Except.ok acc : Except ε (List β)) = .ok ps := h
    exact ((Except.ok.injEq _ _).mp h2).symm
  | cons t ts ih =>
    intro acc ps h hts
    rw [List.foldlM_cons] at h
    cases hf : f t with
    | error e =>
      rw [hf] at h
      exact Except.noConfusion h
    | ok l =>
      rw [hf] at h
      have h2 : ts.foldlM (fun acc t => do
          let l ← f t
          pure (acc ++ l)) (acc ++ l) = .ok ps := h
      have hl : l = [] := hts t (List.mem_cons_self t ts) l hf
      rw [hl, List.append_nil] at h2
      exact ih acc ps h2 (fun x hx => hts x (List.mem_cons_of_mem t hx))

theorem topicPosition_zero_hits (sec : ContentSection) (url : String)
    (tm : TopicMatch)
    (hz1 : supportScoreOf sec.text tm.canonical_name = 0)
    (hz2 : opposeScoreOf sec.text tm.canonical_name = 0)
    (l : List PositionRec) (h : topicPosition sec url tm = .ok l) : l = [] := by
  unfold topicPosition at h
  cases ha : analyzePosition sec.text tm.canonical_name with
  | error e =>
    rw [ha] at h
    exact Except.noConfusion h
  | ok a =>
    rw [ha] at h
    simp only [exceptBind_ok] at h
    have hneutral : a.position = "neutral" := by
      have hp := (analyzePosition_ok_fields ha).1
      rw [hz1, hz2] at hp
      exact hp
    have hgate : (decide (a.confidence > 20) && (a.position != "neutral"))
        = false := by
      rw [hneutral]
      simp
    rw [hgate] at h
    simp only [Bool.false_eq_true, if_false] at h
    exact ((Except.ok.injEq _ _).mp h).symm

/-- C4.  A position is emitted for a `(section, topic)` pair only when the
recorded confidence `min(topicConfidence, stanceConfidence)` exceeds `0.2`
(`20` in hundredths) and the analyzed stance is not `neutral`; and a section
whose text has zero support-lexicon and zero oppose-lexicon hits for every
topic considered for it (matched or hinted) contributes no position at all. -/
theorem position_emission_gate :
    (∀ (sections : List ContentSection) (url : String) (hint : Option String)
        (ps : List PositionRec),
      extractPolicyPositions sections url hint = .ok ps →
      ∀ q ∈ ps, q.stance ≠ "neutral" ∧ 20 < q.confidence_score) ∧
    (∀ (sec : ContentSection) (url : String) (hint : Option String)
        (ps : List PositionRec),
      sectionPositions sec url hint = .ok ps →
      (∀ tm ∈ consideredTopics sec.text hint,
        supportScoreOf sec.text tm.canonical_name = 0 ∧
        opposeScoreOf sec.text tm.canonical_name = 0) →
      ps = []) := by
  constructor
  · intro sections url hint ps h
    refine foldlM_append_ok (fun sec => sectionPositions sec url hint) _
      sections [] ps h ?_ (by intro q hq; cases hq)
    intro sec _ l hl
    exact sectionPositions_gate sec url hint l hl
  · intro sec url hint ps h hz
    refine foldlM_append_nil (fun tm => topicPosition sec url tm)
      (consideredTopics sec.text hint) [] ps h ?_
    intro tm htm l hl
    exact topicPosition_zero_hits sec url tm (hz tm htm).1 (hz tm htm).2 l hl

/-- C4 witness: the one-word section `medicare` matches topic `healthcare`
but has zero stance-lexicon hits, so the pipeline returns no position. -/
theorem position_emission_gate_witness :
    (∀ q ∈ ([] : List PositionRec),
      q.stance ≠ "neutral" ∧ 20 < q.confidence_score) ∧
    ([] : List PositionRec) = [] :=
  ⟨position_emission_gate.1 [⟨"main", "", "medicare", false, false⟩]
      "https://x.gov" none [] (by rfl),
   position_emission_gate.2 ⟨"main", "", "medicare", false, false⟩
      "https://x.gov" none [] (by rfl) (by decide)⟩

/-! ## C6 / C7: the Fetcher -/

/-- C6 counterexample.  A `timeout` event rejects the fetch immediately with
`Request timeout` and zero retry delays — contrary to the claim that every
network-level error (including timeout) is retried up to 3 times before the
fetch fails with the underlying error. -/
theorem fetch_timeout_not_retried :
    fetchModel (fun _ => .reqTimeout) 4 0 "https://x.gov/" 0
      = (.err "Request timeout", []) := by rfl

/-- C6 (amended).  Request `error` events (connection reset, DNS failure) are
retried up to 3 times, with a delay of `(retryCount+1) * 1s` before each
retry, and only after the retries are exhausted does the fetch fail with the
underlying error; an error followed by a successful response resolves after
one 1s delay; a `timeout` event rejects immediately with `Request timeout`
and is never retried. -/
theorem fetch_retry_policy :
    (∀ (events : Nat → NetEvent) (url : String) (m : Nat → String)
        (fuel : Nat),
      (∀ i, i ≤ 3 → events i = .reqError (m i)) →
      fetchModel events (fuel + 4) 0 url 0
        = (.err (m 3), [1000, 2000, 3000])) ∧
    (∀ (events : Nat → NetEvent) (url msg sm body : String) (fuel : Nat),
      events 0 = .reqError msg → events 1 = .response 200 sm none body →
      fetchModel events (fuel + 2) 0 url 0 = (.ok body, [1000])) ∧
    (∀ (events : Nat → NetEvent) (url : String) (fuel : Nat),
      events 0 = .reqTimeout →
      fetchModel events (fuel + 1) 0 url 0
        = (.err "Request timeout", [])) := by
  refine ⟨?_, ?_, ?_⟩
  · intro events url m fuel h
    have h0 := h 0 (by omega)
    have h1 := h 1 (by omega)
    have h2 := h 2 (by omega)
    have h3 := h 3 (by omega)
    rw [show fuel + 4 = (fuel + 3) + 1 from rfl, fetchModel, h0]
    rw [show fuel + 3 = (fuel + 2) + 1 from rfl, fetchModel, h1]
    rw [show fuel + 2 = (fuel + 1) + 1 from rfl, fetchModel, h2]
    rw [show fuel + 1 = fuel + 1 from rfl, fetchModel, h3]
    rfl
  · intro events url msg sm body fuel h0 h1
    rw [show fuel + 2 = (fuel + 1) + 1 from rfl, fetchModel, h0]
    rw [fetchModel, h1]
    rfl
  · intro events url fuel h0
    rw [fetchModel, h0]

/-- C6 witness: four consecutive DNS failures, one failure then success, and
one timeout, at concrete event scripts. -/
theorem fetch_retry_policy_witness :
    (fetchModel (fun _ => .reqError "getaddrinfo ENOTFOUND x.gov") 4 0
        "https://x.gov/" 0
      = (.err "getaddrinfo ENOTFOUND x.gov", [1000, 2000, 3000])) ∧
    (fetchModel (fun k => if k = 0 then .reqError "read ECONNRESET"
        else .response 200 "OK" none "body") 2 0 "https://x.gov/" 0
      = (.ok "body", [1000])) ∧
    (fetchModel (fun _ => .reqTimeout) 1 0 "https://x.gov/" 0
      = (.err "Request timeout", [])) :=
  ⟨fetch_retry_policy.1 (fun _ => .reqError "getaddrinfo ENOTFOUND x.gov")
      "https://x.gov/" (fun _ => "getaddrinfo ENOTFOUND x.gov") 0
      (fun _ _ => rfl),
   fetch_retry_policy.2.1 (fun k => if k = 0 then .reqError "read ECONNRESET"
      else .response 200 "OK" none "body") "https://x.gov/"
      "read ECONNRESET" "OK" "body" 0 rfl rfl,
   fetch_retry_policy.2.2 (fun _ => .reqTimeout) "https://x.gov/" 0 rfl⟩

/-- C7 counterexample.  A `204 No Content` response — a 2xx success — is
rejected as `HTTP 204: No Content` instead of resolving with the body:
the code accepts only status exactly 200. -/
theorem fetch_204_rejected :
    fetchModel (fun _ => .response 204 "No Content" none "the body") 1 0
        "https://x.gov/" 0
      = (.err "HTTP 204: No Content", []) := by rfl

/-- C7 (amended).  The fetch resolves with the page body exactly for HTTP
status 200; a 3xx response carrying a `Location` header is followed by
re-invoking the fetch on the target with the same retry count; every other
response — including non-200 2xx statuses — fails immediately, with no
retry and no delay, with an error message carrying the status code. -/
theorem fetch_status_policy :
    (∀ (events : Nat → NetEvent) (url sm body : String) (code fuel : Nat),
      events 0 = .response code sm none body →
      (code = 200 → fetchModel events (fuel + 1) 0 url 0 = (.ok body, [])) ∧
      (code ≠ 200 → fetchModel events (fuel + 1) 0 url 0
        = (.err ("HTTP " ++ toString code ++ ": " ++ sm), []))) ∧
    (∀ (events : Nat → NetEvent) (url sm loc : String) (code fuel : Nat),
      events 0 = .response code sm (some loc) "" →
      300 ≤ code → code < 400 →
      fetchModel events (fuel + 2) 0 url 0
        = fetchModel events (fuel + 1) 1 loc 0) := by
  constructor
  · intro events url sm body code fuel h0
    constructor
    · intro hc
      rw [fetchModel, h0]
      subst hc
      rfl
    · intro hc
      rw [fetchModel, h0]
      have : (code != 200) = true := by
        simpa using hc
      simp only [this, if_true]
  · intro events url sm loc code fuel h0 h3 h4
    rw [show fuel + 2 = (fuel + 1) + 1 from rfl, fetchModel, h0]
    have : (decide (300 ≤ code) && decide (code < 400)) = true := by
      simp only [Bool.and_eq_true, decide_eq_true_eq]
      exact ⟨h3, h4⟩
    simp only [this, if_true]

/-- C7 witness: a 200 resolves with the body; a 404 and a 204 reject with the
status in the message; a 301 with `Location` is followed to a 200. -/
theorem fetch_status_policy_witness :
    (fetchModel (fun _ => .response 200 "OK" none "hello") 1 0
        "https://x.gov/" 0 = (.ok "hello", [])) ∧
    (fetchModel (fun _ => .response 404 "Not Found" none "nope") 1 0
        "https://x.gov/" 0 = (.err ("HTTP " ++ toString 404 ++ ": " ++ "Not Found"), [])) ∧
    (fetchModel (fun k => if k = 0 then .response 301 "Moved" (some "https://y.gov/") ""
        else .response 200 "OK" none "dest") 2 0 "https://x.gov/" 0
      = fetchModel (fun k => if k = 0 then .response 301 "Moved" (some "https://y.gov/") ""
        else .response 200 "OK" none "dest") 1 1 "https://y.gov/" 0) :=
  ⟨((fetch_status_policy.1 (fun _ => .response 200 "OK" none "hello")
      "https://x.gov/" "OK" "hello" 200 0 rfl).1 rfl),
   ((fetch_status_policy.1 (fun _ => .response 404 "Not Found" none "nope")
      "https://x.gov/" "Not Found" "nope" 404 0 rfl).2 (by decide)),
   (fetch_status_policy.2 (fun k => if k = 0 then .response 301 "Moved" (some "https://y.gov/") ""
      else .response 200 "OK" none "dest") "https://x.gov/" "Moved"
      "https://y.gov/" 301 0 rfl (by decide) (by decide))⟩

/-! ## C10: one crawl-log entry per subject, failure isolated per subject -/

theorem extractPositionsFromWebsite_log_len (w : SubjectWorld) (p : Politician)
    (d : Nat) (now : Int) (st : CrawlState) :
    (extractPositionsFromWebsite w p d now st).crawlLog.length
      = st.crawlLog.length + 1 := by
  simp only [extractPositionsFromWebsite, logCrawlAttempt]
  cases h : subjectPipeline w (p.website.getD "") <;> simp [h]

/-- C10.  Exactly one `CrawlLogEntry` is appended per subject per crawl
attempt, whatever the network/DOM world does (however many sub-pages are
visited): a pipeline exception is caught at the top of the subject's
processing and recorded as a `status=error` entry carrying the exception
message, a normal return is recorded as `success` with the position count;
and a whole run appends exactly one entry per subject, so one subject's
failure never aborts the run. -/
theorem crawl_log_one_entry_per_subject :
    (∀ (w : SubjectWorld) (p : Politician) (d : Nat) (now : Int)
        (st : CrawlState) (msg : String),
      subjectPipeline w (p.website.getD "") = .error msg →
      (extractPositionsFromWebsite w p d now st).crawlLog
        = st.crawlLog ++
          [⟨p.id, p.website.getD "", "error", 0, some msg, d, now⟩]) ∧
    (∀ (w : SubjectWorld) (p : Politician) (d : Nat) (now : Int)
        (st : CrawlState) (ps : List PositionRec),
      subjectPipeline w (p.website.getD "") = .ok ps →
      (extractPositionsFromWebsite w p d now st).crawlLog
        = st.crawlLog ++
          [⟨p.id, p.website.getD "", "success", ps.length, none, d, now⟩]) ∧
    (∀ (w : SubjectWorld) (ps : List Politician) (d : Nat) (now : Int)
        (st : CrawlState),
      (crawlSubjects w ps d now st).crawlLog.length
        = st.crawlLog.length + ps.length) := by
  refine ⟨?_, ?_, ?_⟩
  · intro w p d now st msg h
    simp only [extractPositionsFromWebsite, logCrawlAttempt, h]
  · intro w p d now st ps h
    simp only [extractPositionsFromWebsite, logCrawlAttempt, h]
  · intro w ps d now st
    induction ps generalizing st with
    | nil => simp [crawlSubjects]
    | cons p ps ih =>
      have hstep : crawlSubjects w (p :: ps) d now st
          = crawlSubjects w ps d now (extractPositionsFromWebsite w p d now st) := by
        unfold crawlSubjects
        rw [List.foldl_cons]
      rw [hstep, ih, extractPositionsFromWebsite_log_len, List.length_cons]
      omega

/-- C10 witness: a world whose every fetch fails with a DNS error — the
subject is logged as one `error` entry with the message, and a two-subject
run (the second subject without a website) appends exactly two entries. -/
theorem crawl_log_one_entry_per_subject_witness :
    (extractPositionsFromWebsite
        ⟨fun _ => .error "getaddrinfo ENOTFOUND x.gov",
         fun _ => ⟨[], none, ""⟩, fun _ => []⟩
        ⟨"p1", "Alice", some "https://x.gov/"⟩ 5 0 ⟨[], [], 0, 0⟩).crawlLog
      = [] ++ [⟨"p1", "https://x.gov/", "error", 0,
          some "getaddrinfo ENOTFOUND x.gov", 5, 0⟩] ∧
    (crawlSubjects
        ⟨fun _ => .error "getaddrinfo ENOTFOUND x.gov",
         fun _ => ⟨[], none, ""⟩, fun _ => []⟩
        [⟨"p1", "Alice", some "https://x.gov/"⟩, ⟨"p2", "Bob", none⟩]
        5 0 ⟨[], [], 0, 0⟩).crawlLog.length
      = ([] : List CrawlLogRow).length + 2 :=
  ⟨crawl_log_one_entry_per_subject.1
      ⟨fun _ => .error "getaddrinfo ENOTFOUND x.gov",
       fun _ => ⟨[], none, ""⟩, fun _ => []⟩
      ⟨"p1", "Alice", some "https://x.gov/"⟩ 5 0 ⟨[], [], 0, 0⟩
      "getaddrinfo ENOTFOUND x.gov" rfl,
   crawl_log_one_entry_per_subject.2.2
      ⟨fun _ => .error "getaddrinfo ENOTFOUND x.gov",
       fun _ => ⟨[], none, ""⟩, fun _ => []⟩
      [⟨"p1", "Alice", some "https://x.gov/"⟩, ⟨"p2", "Bob", none⟩]
      5 0 ⟨[], [], 0, 0⟩⟩

/-! ## C8: the content-section pipeline -/

/-- C8 counterexample.  A matched element whose text is exactly 100 characters
is dropped (the source keeps `length > 100 && length < 5000`, an open
interval, not the closed `[100, 5000]` of the claim); at 101 characters it is
kept. -/
theorem findContentSections_boundary :
    findContentSections
        ⟨[⟨"main", ⟨List.replicate 100 'a'⟩, "t", true, true⟩], none, ""⟩
      = [] ∧
    findContentSections
        ⟨[⟨"main", ⟨List.replicate 101 'a'⟩, "t", true, true⟩], none, ""⟩
      = [⟨"main", "t", ⟨List.replicate 101 'a'⟩, true, true⟩] :=
  ⟨rfl, rfl⟩

theorem sectionScore_asym :
    ∀ a b : ContentSection,
      (decide (sectionScore b < sectionScore a)) = true →
      (decide (sectionScore a < sectionScore b)) = false := by
  intro a b h
  rw [decide_eq_true_eq] at h
  rw [decide_eq_false_iff_not]
  omega

theorem sectionScore_trans :
    ∀ a b c : ContentSection,
      (decide (sectionScore a < sectionScore b)) = false →
      (decide (sectionScore b < sectionScore c)) = false →
      (decide (sectionScore a < sectionScore c)) = false := by
  intro a b c h1 h2
  rw [decide_eq_false_iff_not] at h1 h2
  rw [decide_eq_false_iff_not]
  omega

/-- C8 (amended).  `findContentSections` returns at most 15 sections, sorted
by `2·isKeySection + 1·hasStructuredContent` descending, pairwise distinct on
the first 200 characters of their text, and every returned section comes from
a matched element whose text length lies strictly between 100 and 5000
characters (`(100, 5000)`, not the closed `[100, 5000]`) — or is the
meta-description fallback section (added when the description is longer than
50 chars). -/
theorem findContentSections_pipeline :
    ∀ page : Page,
      (findContentSections page).length ≤ 15 ∧
      (findContentSections page).Pairwise
        (fun a b => sectionScore b ≤ sectionScore a) ∧
      (findContentSections page).Pairwise
        (fun a b => jsTake a.text 200 ≠ jsTake b.text 200) ∧
      (∀ s ∈ findContentSections page,
        (∃ m ∈ page.matchList, 100 < m.text.length ∧ m.text.length < 5000 ∧
          s = sectionOfMatch m) ∨
        (∃ d, page.metaDescription = some d ∧ 50 < d.length ∧
          s = ⟨"meta[description]", page.pageTitle, d, true, false⟩)) := by
  intro page
  have hperm := jsSort_perm (fun a b => decide (sectionScore b < sectionScore a))
    (jsDedupBy (fun s => jsTake s.text 200) (candidateSections page))
  refine ⟨?_, ?_, ?_, ?_⟩
  · exact List.length_take_le 15 _
  · have hs := jsSort_pairwise
      (fun a b => decide (sectionScore b < sectionScore a))
      sectionScore_asym sectionScore_trans
      (jsDedupBy (fun s => jsTake s.text 200) (candidateSections page))
    have hs2 : (jsSort (fun a b => decide (sectionScore b < sectionScore a))
        (jsDedupBy (fun s => jsTake s.text 200)
          (candidateSections page))).Pairwise
        (fun a b => sectionScore b ≤ sectionScore a) := by
      refine hs.imp ?_
      intro a b h
      rw [decide_eq_false_iff_not] at h
      omega
    exact hs2.sublist (List.take_sublist 15 _)
  · have hd := jsDedupBy_pairwise (fun s => jsTake s.text 200)
      (candidateSections page)
    have hd2 := (hperm.pairwise_iff (fun {a b} h => Ne.symm h)).mpr hd
    exact hd2.sublist (List.take_sublist 15 _)
  · intro s hs
    have hs1 : s ∈ jsSort (fun a b => decide (sectionScore b < sectionScore a))
        (jsDedupBy (fun s => jsTake s.text 200) (candidateSections page)) :=
      (List.take_sublist 15 _).subset hs
    have hs2 := hperm.mem_iff.mp hs1
    have hs3 : s ∈ candidateSections page :=
      mem_of_mem_jsDedupBy (fun s => jsTake s.text 200) _ s hs2
    rw [candidateSections] at hs3
    rcases List.mem_append.mp hs3 with hA | hB
    · left
      rcases List.mem_map.mp hA with ⟨m, hm, hsm⟩
      have hcond := (List.mem_filter.mp hm).2
      rw [Bool.and_eq_true, decide_eq_true_eq, decide_eq_true_eq] at hcond
      exact ⟨m, (List.mem_filter.mp hm).1, hcond.1, hcond.2, hsm.symm⟩
    · right
      cases hmd : page.metaDescription with
      | none =>
        simp only [hmd] at hB
        cases hB
      | some d =>
        simp only [hmd] at hB
        by_cases hc : (d != "" && decide (d.length > 50)) = true
        · rw [if_pos hc] at hB
          rw [Bool.and_eq_true, decide_eq_true_eq] at hc
          exact ⟨d, rfl, hc.2, List.mem_singleton.mp hB⟩
        · rw [if_neg hc] at hB
          cases hB

/-- C8 witness: a page with one 101-char `main` match yields that section,
and every conjunct holds at it. -/
theorem findContentSections_pipeline_witness :
    (∃ m ∈ ([⟨"main", ⟨List.replicate 101 'a'⟩, "t", true, true⟩] :
          List ElementMatch),
        100 < m.text.length ∧ m.text.length < 5000 ∧
        (⟨"main", "t", ⟨List.replicate 101 'a'⟩, true, true⟩ : ContentSection)
          = sectionOfMatch m) ∨
    (∃ d, (none : Option String) = some d ∧ 50 < d.length ∧
        (⟨"main", "t", ⟨List.replicate 101 'a'⟩, true, true⟩ : ContentSection)
          = ⟨"meta[description]", "", d, true, false⟩) :=
  (findContentSections_pipeline
      ⟨[⟨"main", ⟨List.replicate 101 'a'⟩, "t", true, true⟩], none, ""⟩).2.2.2
    ⟨"main", "t", ⟨List.replicate 101 'a'⟩, true, true⟩ (by decide)

/-! ## C9: page discovery -/

/-- C9 counterexample.  A path-relative href (`issues/healthcare`, no leading
slash) is *skipped*, not resolved against the base URL — even though resolving
it against `https://x.gov/index` would give the same-host `/issues/`-matching
candidate that the root-relative form of the link produces. -/
theorem discoverPolicyPages_relative_skipped :
    discoverPolicyPages [⟨"issues/healthcare", "issues and positions"⟩]
        "https://x.gov/index" = .ok [] ∧
    discoverPolicyPages [⟨"/issues/healthcare", "issues and positions"⟩]
        "https://x.gov/index"
      = .ok [⟨"https://x.gov/issues/healthcare", "issues and positions",
          some "healthcare"⟩] :=
  ⟨rfl, rfl⟩

theorem anchorCandidate_host (base : UrlParts) (a : Anchor) :
    ∀ pp ∈ anchorCandidate base a,
      ∃ u, parseUrl pp.url = some u ∧ u.hostname = base.hostname := by
  intro pp hpp
  simp only [anchorCandidate] at hpp
  cases hfu : resolveHref base a.href with
  | none =>
    rw [hfu] at hpp
    cases hpp
  | some fullUrl =>
    rw [hfu] at hpp
    simp only [] at hpp
    cases hu : parseUrl fullUrl with
    | none =>
      rw [hu] at hpp
      cases hpp
    | some u =>
      rw [hu] at hpp
      simp only [] at hpp
      by_cases hhost : (u.hostname != base.hostname) = true
      · rw [if_pos hhost] at hpp
        cases hpp
      · rw [if_neg hhost] at hpp
        have hhost2 : u.hostname = base.hostname := by
          simpa using hhost
        by_cases hm : (policyPatterns.any
              (fun pat => jsIncludes (jsToLower u.pathname) pat) ||
            topicPatterns.any (fun t =>
              jsIncludes (jsToLower u.pathname) t ||
              jsIncludes (jsToLower (jsTrim a.text)) t)) = true
        · rw [if_pos hm] at hpp
          rw [List.mem_singleton.mp hpp]
          exact ⟨u, hu, hhost2⟩
        · rw [if_neg hm] at hpp
          cases hpp

/-- C9 (amended).  Page discovery resolves absolute (`http...`) hrefs as
given and root-relative hrefs (leading `/`) against the base protocol and
host — any other href is skipped, not resolved; every resolved URL whose host
differs from the base host is discarded, so every returned candidate parses
to the base host; the result is deduplicated by URL and holds at most 15
candidates; and `/issues/healthcare` found on `https://x.gov/index` resolves
to `https://x.gov/issues/healthcare` with topic hint `healthcare`. -/
theorem discoverPolicyPages_spec :
    (∀ (anchors : List Anchor) (baseUrl : String) (base : UrlParts)
        (out : List PolicyPage),
      parseUrl baseUrl = some base →
      discoverPolicyPages anchors baseUrl = .ok out →
      out.length ≤ 15 ∧
      out.Pairwise (fun a b => a.url ≠ b.url) ∧
      ∀ pp ∈ out, ∃ u, parseUrl pp.url = some u ∧
        u.hostname = base.hostname) ∧
    discoverPolicyPages [⟨"/issues/healthcare", ""⟩] "https://x.gov/index"
      = .ok [⟨"https://x.gov/issues/healthcare", "", some "healthcare"⟩] := by
  constructor
  · intro anchors baseUrl base out hbase h
    unfold discoverPolicyPages at h
    rw [hbase] at h
    simp only [] at h
    have hout : out = (jsDedupBy (fun p => p.url)
        ((anchors.map (anchorCandidate base)).flatten)).take 15 :=
      ((Except.ok.injEq _ _).mp h).symm
    rw [hout]
    refine ⟨List.length_take_le 15 _, ?_, ?_⟩
    · exact (jsDedupBy_pairwise (fun p : PolicyPage => p.url)
        ((anchors.map (anchorCandidate base)).flatten)).sublist
        (List.take_sublist 15 _)
    · intro pp hpp
      have hpp1 : pp ∈ jsDedupBy (fun p => p.url)
          ((anchors.map (anchorCandidate base)).flatten) :=
        (List.take_sublist 15 _).subset hpp
      have hpp2 := mem_of_mem_jsDedupBy (fun p => p.url) _ pp hpp1
      rcases List.mem_flatten.mp hpp2 with ⟨l, hl, hppl⟩
      rcases List.mem_map.mp hl with ⟨a, _, hla⟩
      rw [← hla] at hppl
      exact anchorCandidate_host base a pp hppl
  · rfl

/-- C9 witness: the spec applied to the single root-relative anchor on
`https://x.gov/index`. -/
theorem discoverPolicyPages_spec_witness :
    ([⟨"https://x.gov/issues/healthcare", "", some "healthcare"⟩] :
        List PolicyPage).length ≤ 15 ∧
    ([⟨"https://x.gov/issues/healthcare", "", some "healthcare"⟩] :
        List PolicyPage).Pairwise (fun a b => a.url ≠ b.url) ∧
    (∀ pp ∈ ([⟨"https://x.gov/issues/healthcare", "", some "healthcare"⟩] :
        List PolicyPage),
      ∃ u, parseUrl pp.url = some u ∧
        u.hostname = (⟨"https:", "x.gov", "/index", ""⟩ : UrlParts).hostname) :=
  discoverPolicyPages_spec.1 [⟨"/issues/healthcare", ""⟩]
    "https://x.gov/index" ⟨"https:", "x.gov", "/index", ""⟩
    [⟨"https://x.gov/issues/healthcare", "", some "healthcare"⟩] rfl rfl

/-! ## C3: the Scheduler -/

theorem hasLogWithin_none_iff (log : List CrawlLogRow) (pid status : String)
    (w now : Int) :
    hasLogWithin log pid status none w now = true ↔
    ∃ e ∈ log, e.politician_id = pid ∧ e.crawl_status = status ∧
      now - e.crawled_at < w * msPerDay := by
  unfold hasLogWithin
  rw [List.any_eq_true]
  constructor
  · rintro ⟨e, he, hcond⟩
    simp only [Bool.and_eq_true, beq_iff_eq, decide_eq_true_eq] at hcond
    exact ⟨e, he, hcond.1.1.1, hcond.1.1.2, by omega⟩
  · rintro ⟨e, he, h1, h2, h3⟩
    refine ⟨e, he, ?_⟩
    simp only [Bool.and_eq_true, beq_iff_eq, decide_eq_true_eq]
    exact ⟨⟨⟨h1, h2⟩, trivial⟩, by omega⟩

theorem hasLogWithin_some_iff (log : List CrawlLogRow) (pid status pat : String)
    (w now : Int) :
    hasLogWithin log pid status (some pat) w now = true ↔
    ∃ e ∈ log, e.politician_id = pid ∧ e.crawl_status = status ∧
      sqlLikeContains e.error_message pat = true ∧
      now - e.crawled_at < w * msPerDay := by
  unfold hasLogWithin
  rw [List.any_eq_true]
  constructor
  · rintro ⟨e, he, hcond⟩
    simp only [Bool.and_eq_true, beq_iff_eq, decide_eq_true_eq] at hcond
    exact ⟨e, he, hcond.1.1.1, hcond.1.1.2, hcond.1.2, by omega⟩
  · rintro ⟨e, he, h1, h2, h3, h4⟩
    refine ⟨e, he, ?_⟩
    simp only [Bool.and_eq_true, beq_iff_eq, decide_eq_true_eq]
    exact ⟨⟨⟨h1, h2⟩, h3⟩, by omega⟩

theorem websiteCond_iff (p : Politician) :
    (match p.website with
     | none => false
     | some w => w != "") = true ↔
    ∃ w, p.website = some w ∧ w ≠ "" := by
  cases hw : p.website with
  | none => simp
  | some w => simp [bne_iff_ne]

theorem name_lt_asym :
    ∀ a b : Politician, (decide (a.name < b.name)) = true →
      (decide (b.name < a.name)) = false := by
  intro a b h
  rw [decide_eq_true_eq] at h
  rw [decide_eq_false_iff_not]
  exact lt_asymm h

theorem name_lt_trans :
    ∀ a b c : Politician, (decide (b.name < a.name)) = false →
      (decide (c.name < b.name)) = false →
      (decide (c.name < a.name)) = false := by
  intro a b c h1 h2
  rw [decide_eq_false_iff_not] at h1 h2
  rw [decide_eq_false_iff_not]
  rw [not_lt] at h1 h2 ⊢
  exact le_trans h1 h2

/-- C3 counterexample.  A subject whose only (hence most recent) log entry is
a generic error — neither DNS nor 403 — half a day old: the claim's skip
policy excludes it (`error` of any other cause, age < 1 day), and
`shouldSkipPolitician` indeed skips it, but the Scheduler's batch query
`getPoliticiansWithWebsites` still returns the subject: its SQL has no
generic-error one-day window at all. -/
theorem scheduler_generic_error_returned :
    shouldSkipPolitician
        [⟨"p1", "https://a.example", "error", 0,
          some "connect ECONNREFUSED", 5, 0⟩] "p1" 43200000 = true ∧
    getPoliticiansWithWebsites [⟨"p1", "Alice", some "https://a.example"⟩]
        [⟨"p1", "https://a.example", "error", 0,
          some "connect ECONNREFUSED", 5, 0⟩] 43200000
      = [⟨"p1", "Alice", some "https://a.example"⟩] :=
  ⟨rfl, rfl⟩

/-- C3 (amended).  The batch Scheduler `getPoliticiansWithWebsites` returns
the subjects with a non-null, non-empty website ordered alphabetically by
name, and a subject is excluded if and only if *some* (not only the most
recent) log entry is a `success` younger than 7 days, or an `error` matching
`%ENOTFOUND%` younger than 30 days, or an `error` matching `%403%` younger
than 7 days — the generic-error one-day window of the claim is absent from
this query.  The per-subject path `shouldSkipPolitician` does implement the
claimed four-rule policy on the most recent entry (checking `ENOTFOUND`
before `403`); a subject with no log entry is never skipped there. -/
theorem scheduler_policy :
    (∀ (politicians : List Politician) (log : List CrawlLogRow) (now : Int),
      (getPoliticiansWithWebsites politicians log now).Pairwise
        (fun a b => a.name ≤ b.name)) ∧
    (∀ (politicians : List Politician) (log : List CrawlLogRow) (now : Int)
        (p : Politician),
      p ∈ getPoliticiansWithWebsites politicians log now ↔
      (p ∈ politicians ∧ (∃ w, p.website = some w ∧ w ≠ "") ∧
       ¬(∃ e ∈ log, e.politician_id = p.id ∧ e.crawl_status = "success" ∧
          now - e.crawled_at < 7 * msPerDay) ∧
       ¬(∃ e ∈ log, e.politician_id = p.id ∧ e.crawl_status = "error" ∧
          sqlLikeContains e.error_message "ENOTFOUND" = true ∧
          now - e.crawled_at < 30 * msPerDay) ∧
       ¬(∃ e ∈ log, e.politician_id = p.id ∧ e.crawl_status = "error" ∧
          sqlLikeContains e.error_message "403" = true ∧
          now - e.crawled_at < 7 * msPerDay))) ∧
    (∀ (log : List CrawlLogRow) (pid : String) (now : Int),
      shouldSkipPolitician log pid now = true ↔
      ∃ e, mostRecentLog log pid = some e ∧
        ((e.crawl_status = "success" ∧ now - e.crawled_at < 7 * msPerDay) ∨
         (e.crawl_status = "error" ∧
          optIncludes e.error_message "ENOTFOUND" = true ∧
          now - e.crawled_at < 30 * msPerDay) ∨
         (e.crawl_status = "error" ∧
          optIncludes e.error_message "ENOTFOUND" = false ∧
          optIncludes e.error_message "403" = true ∧
          now - e.crawled_at < 7 * msPerDay) ∨
         (e.crawl_status = "error" ∧
          optIncludes e.error_message "ENOTFOUND" = false ∧
          optIncludes e.error_message "403" = false ∧
          now - e.crawled_at < 1 * msPerDay))) := by
  refine ⟨?_, ?_, ?_⟩
  · intro politicians log now
    have hs := jsSort_pairwise (fun a b => decide (a.name < b.name))
      name_lt_asym name_lt_trans
      (politicians.filter (fun p =>
        (match p.website with | none => false | some w => w != "") &&
        !hasLogWithin log p.id "success" none 7 now &&
        !hasLogWithin log p.id "error" (some "ENOTFOUND") 30 now &&
        !hasLogWithin log p.id "error" (some "403") 7 now))
    refine hs.imp ?_
    intro a b h
    rw [decide_eq_false_iff_not, not_lt] at h
    exact h
  · intro politicians log now p
    unfold getPoliticiansWithWebsites sortByName
    rw [(jsSort_perm _ _).mem_iff, List.mem_filter]
    simp only [Bool.and_eq_true, Bool.not_eq_true']
    rw [websiteCond_iff]
    constructor
    · rintro ⟨hp, ⟨⟨⟨hw, h1⟩, h2⟩, h3⟩⟩
      refine ⟨hp, hw, ?_, ?_, ?_⟩
      · rw [← hasLogWithin_none_iff log p.id "success" 7 now]
        simp [h1]
      · rw [← hasLogWithin_some_iff log p.id "error" "ENOTFOUND" 30 now]
        simp [h2]
      · rw [← hasLogWithin_some_iff log p.id "error" "403" 7 now]
        simp [h3]
    · rintro ⟨hp, hw, h1, h2, h3⟩
      rw [← hasLogWithin_none_iff log p.id "success" 7 now] at h1
      rw [← hasLogWithin_some_iff log p.id "error" "ENOTFOUND" 30 now] at h2
      rw [← hasLogWithin_some_iff log p.id "error" "403" 7 now] at h3
      refine ⟨hp, ⟨⟨⟨hw, ?_⟩, ?_⟩, ?_⟩⟩
      · simpa using h1
      · simpa using h2
      · simpa using h3
  · intro log pid now
    unfold shouldSkipPolitician
    cases hm : mostRecentLog log pid with
    | none =>
      simp only [hm]
      simp
    | some e =>
      simp only [hm]
      by_cases h1 : (e.crawl_status == "success") = true
      · rw [if_pos h1]
        have hs : e.crawl_status = "success" := by simpa using h1
        constructor
        · intro hlt
          rw [decide_eq_true_eq] at hlt
          exact ⟨e, rfl, Or.inl ⟨hs, hlt⟩⟩
        · rintro ⟨e', he', hd⟩
          have heq : e = e' := Option.some.inj he'
          subst heq
          rw [decide_eq_true_eq]
          rcases hd with d | d | d | d
          · exact d.2
          · exact absurd (d.1.symm.trans hs)
              (by decide : ("error" : String) ≠ "success")
          · exact absurd (d.1.symm.trans hs)
              (by decide : ("error" : String) ≠ "success")
          · exact absurd (d.1.symm.trans hs)
              (by decide : ("error" : String) ≠ "success")
      · rw [if_neg h1]
        have hns : e.crawl_status ≠ "success" := by simpa using h1
        by_cases h2 : (e.crawl_status == "error") = true
        · rw [if_pos h2]
          have herr : e.crawl_status = "error" := by simpa using h2
          by_cases h3 : optIncludes e.error_message "ENOTFOUND" = true
          · rw [if_pos h3]
            constructor
            · intro hlt
              rw [decide_eq_true_eq] at hlt
              exact ⟨e, rfl, Or.inr (Or.inl ⟨herr, h3, hlt⟩)⟩
            · rintro ⟨e', he', hd⟩
              have heq : e = e' := Option.some.inj he'
              subst heq
              rw [decide_eq_true_eq]
              rcases hd with d | d | d | d
              · exact absurd d.1 hns
              · exact d.2.2
              · exact absurd h3 (by rw [d.2.1]; decide)
              · exact absurd h3 (by rw [d.2.1]; decide)
          · rw [if_neg h3]
            have h3f : optIncludes e.error_message "ENOTFOUND" = false := by
              simpa using h3
            by_cases h4 : optIncludes e.error_message "403" = true
            · rw [if_pos h4]
              constructor
              · intro hlt
                rw [decide_eq_true_eq] at hlt
                exact ⟨e, rfl, Or.inr (Or.inr (Or.inl ⟨herr, h3f, h4, hlt⟩))⟩
              · rintro ⟨e', he', hd⟩
                have heq : e = e' := Option.some.inj he'
                subst heq
                rw [decide_eq_true_eq]
                rcases hd with d | d | d | d
                · exact absurd d.1 hns
                · exact absurd d.2.1 (by rw [h3f]; decide)
                · exact d.2.2.2
                · exact absurd h4 (by rw [d.2.2.1]; decide)
            · rw [if_neg h4]
              have h4f : optIncludes e.error_message "403" = false := by
                simpa using h4
              constructor
              · intro hlt
                rw [decide_eq_true_eq] at hlt
                exact ⟨e, rfl,
                  Or.inr (Or.inr (Or.inr ⟨herr, h3f, h4f, hlt⟩))⟩
              · rintro ⟨e', he', hd⟩
                have heq : e = e' := Option.some.inj he'
                subst heq
                rw [decide_eq_true_eq]
                rcases hd with d | d | d | d
                · exact absurd d.1 hns
                · exact absurd d.2.1 (by rw [h3f]; decide)
                · exact absurd d.2.2.1 (by rw [h4f]; decide)
                · exact d.2.2.2
        · rw [if_neg h2]
          have hnerr : e.crawl_status ≠ "error" := by simpa using h2
          constructor
          · intro hf
            exact absurd hf (by decide)
          · rintro ⟨e', he', hd⟩
            have heq : e = e' := Option.some.inj he'
            subst heq
            rcases hd with d | d | d | d
            · exact absurd d.1 hns
            · exact absurd d.1 hnerr
            · exact absurd d.1 hnerr
            · exact absurd d.1 hnerr

end PolicyCrawler
